import Mathlib

/-!
Shallow embedding of the ZeroTier VL1 core: the `onRemotePacket` ingress
pipeline and HELLO / OK handlers of `src/attic/core/VL1.cpp`, and the
`Topology` peer registry of the `Topology.cpp` translation unit
(`src/unnamed/part_002`).

Packets are byte lists (each entry one octet).  Cryptographic primitives
(Salsa20/12, Poly1305, HMAC-SHA-384, AES-CTR, LZ4) and the marshaled
formats of external objects (Identity, InetAddress, Dictionary) are
black boxes in the source's design (spec §1 non-goals); they appear here
as oracle function fields of `Env` / `Crypto`, and the control flow that
consumes their results is translated from the source.
-/

namespace ZeroTier

/-- Byte sequence; each element is one octet value. -/
abbrev Bytes := List Nat

/-! ### Protocol constants

The numeric packet-layout constants come from `Protocol.hpp`, which is not
part of the excerpt; their values are modelled from the spec (§4.1 header
table: packet id at 0, destination at 8, source at 13, flags at 18, MAC at
19, verb at 27, payload at 28) and are consistent with every
`static_assert` in `VL1.cpp`. -/

/-- Modelled from the spec: §4.1, packet ID lives at offset 0 (8 bytes). -/
def ZT_PROTO_PACKET_ID_INDEX : Nat := 0

/-- Modelled from the spec: §4.1, destination address at offset 8 (5 bytes). -/
def ZT_PROTO_PACKET_DESTINATION_INDEX : Nat := 8

/-- Modelled from the spec: §4.1, source address at offset 13 (5 bytes). -/
def ZT_PROTO_PACKET_SOURCE_INDEX : Nat := 13

/-- Modelled from the spec: §4.1, flags byte at offset 18. -/
def ZT_PROTO_PACKET_FLAGS_INDEX : Nat := 18

/-- Modelled from the spec: §4.1, MAC field at offset 19 (8 bytes). -/
def ZT_PROTO_PACKET_MAC_INDEX : Nat := 19

/-- Modelled from the spec: §4.1, verb byte at offset 27. -/
def ZT_PROTO_PACKET_VERB_INDEX : Nat := 27

/-- Modelled from the spec: §4.1, payload starts at offset 28. -/
def ZT_PROTO_PACKET_PAYLOAD_START : Nat := 28

/-- Modelled from the spec: the encrypted/authenticated section starts at the
verb byte (everything before it is header covered only by the MAC key
derivation), consistent with the `hdrRemaining` logic of
`p_SalsaPolyCopyFunction`. -/
def ZT_PROTO_PACKET_ENCRYPTED_SECTION_START : Nat := 27

/-- Modelled from the spec: minimum fragment length; a value of 16 satisfies
all `static_assert` bounds in `VL1.cpp` (id+8 < len, dst+5 < len,
fragment counts byte 14 < len). -/
def ZT_PROTO_MIN_FRAGMENT_LENGTH : Nat := 16

/-- Modelled from the spec: minimum packet length equals the payload start
offset 28 (verb byte must be present), consistent with the
`static_assert (MAC_INDEX + 8) < MIN_PACKET_LENGTH`. -/
def ZT_PROTO_MIN_PACKET_LENGTH : Nat := 28

/-- Modelled from the spec: §4.1, fragment indicator byte position 13. -/
def ZT_PROTO_PACKET_FRAGMENT_INDICATOR_INDEX : Nat := 13

/-- Modelled from the spec: §4.1, the fragment indicator value `0xff`. -/
def ZT_PROTO_PACKET_FRAGMENT_INDICATOR : Nat := 0xff

/-- Modelled from the spec: the `fragmented` bit of the flags byte. -/
def ZT_PROTO_FLAG_FRAGMENTED : Nat := 0x40

/-- Modelled from the spec: low three bits of the flags byte are `hops`. -/
def ZT_PROTO_FLAG_FIELD_HOPS_MASK : Nat := 0x07

/-- Modelled from the spec: low five bits of the verb byte are the verb. -/
def ZT_PROTO_VERB_MASK : Nat := 0x1f

/-- Modelled from the spec: §4.1, `compressed = 0x80` verb flag. -/
def ZT_PROTO_VERB_FLAG_COMPRESSED : Nat := 0x80

/-- Modelled from the spec: buffer capacity (`Buf` holds the largest
datagram plus headroom). -/
def ZT_BUF_MEM_SIZE : Nat := 16384

/-- Modelled from the spec: §4.7.2, HMAC-SHA-384 output length is 48. -/
def ZT_HMACSHA384_LEN : Nat := 48

/-- Modelled from the spec: minimum accepted HELLO protocol version; the
exact value is not in the excerpt and no claim depends on it, it only needs
to be below 11 so that both HELLO authentication branches are reachable. -/
def ZT_PROTO_VERSION_MIN : Nat := 6

/-- Modelled from the spec: §5, `WHOIS_RETRY_DELAY_MS` ≈ 1000. -/
def ZT_WHOIS_RETRY_DELAY : Int := 1000

/-- Modelled from the spec: §4.6, Expect entries expire after ≈ 2 s. -/
def ZT_EXPECT_TTL : Int := 2000

/-- Modelled from the spec: §5, `PEER_ALIVE_TIMEOUT_MS` ≈ 600 000. -/
def ZT_PEER_ALIVE_TIMEOUT : Int := 600000

/-- Modelled from the spec: §5, periodic keepalive period (the root ranking
quantum is half of it); the claims do not depend on the exact value. -/
def ZT_PATH_KEEPALIVE_PERIOD : Int := 20000

/-- Modelled from the spec: §4.3, inbound dedup ring size (e.g. 32). -/
def ZT_PEER_DEDUP_WINDOW : Nat := 32

/-- Cipher extraction as the source performs it:
`cipher = (hdr[ZT_PROTO_PACKET_FLAGS_INDEX] >> 3U) & 3U` — a *two*-bit
field (bits 3..4 of the flags byte). -/
def packetCipher (flags : Nat) : Nat := (flags / 8) % 4

/-- Cipher extraction as the spec describes it: bits 3..5 of the flags
byte, a three-bit field able to hold the values 0–7. -/
def specCipherField (flags : Nat) : Nat := (flags / 8) % 8

/-- Verb numbers from spec §4.1 (the `Protocol::Verb` enum). -/
def VERB_NOP : Nat := 0

/-- HELLO verb number. -/
def VERB_HELLO : Nat := 1

/-- ERROR verb number. -/
def VERB_ERROR : Nat := 2

/-- OK verb number. -/
def VERB_OK : Nat := 3

/-- WHOIS verb number. -/
def VERB_WHOIS : Nat := 4

/-- FRAME verb number. -/
def VERB_FRAME : Nat := 6

/-! ### Byte access helpers -/

/-- Read the byte at index `i`, 0 beyond the end (a `Buf` read of a region
past the written area yields its zero-filled backing store). -/
def byteAt (d : Bytes) (i : Nat) : Nat := d.getD i 0

/-- Big-endian load of `n` bytes starting at `off` (spec §6: all integers
are big-endian on the wire). -/
def loadBE (d : Bytes) (off n : Nat) : Nat :=
  (List.range n).foldl (fun acc i => acc * 256 + byteAt d (off + i)) 0

/-! ### Data model -/

/-- Identity: address plus opaque public-key material; `valid` models the
result of `Identity::locallyValidate()` on it. -/
structure Identity where
  addr : Nat
  material : Nat
  valid : Bool
deriving DecidableEq, Repr

/-- Peer session state used by the VL1 pipeline and Topology.  The dedup
ring is modelled from the spec (§4.3): a bounded ring of recently seen
packet IDs.  `latency` is negative when unknown (spec §4.5). -/
structure Peer where
  identity : Identity
  rawIdentityKey : Nat
  helloHmacKey : Nat
  helloDictKey : Nat
  dedupRing : List Nat
  lastReceive : Int
  latency : Int
deriving DecidableEq, Repr

/-- Address of a peer (`Peer::address()` is the identity's address). -/
def Peer.address (p : Peer) : Nat := p.identity.addr

/-- Modelled from the spec: `Peer.deduplicate_incoming_packet(id)` — true if
`id` was seen within the dedup window; otherwise record it and return
false (`Peer.hpp` is not in the excerpt). -/
def deduplicateIncomingPacket (p : Peer) (id : Nat) : Bool × Peer :=
  if p.dedupRing.contains id then (true, p)
  else (false, { p with dedupRing := (id :: p.dedupRing).take ZT_PEER_DEDUP_WINDOW })

/-- Drop reasons surfaced through Trace (`ZT_TRACE_PACKET_DROP_REASON_*`). -/
inductive DropReason
  | MALFORMED_PACKET
  | INVALID_OBJECT
  | MAC_FAILED
  | INVALID_COMPRESSED_DATA
  | PEER_TOO_OLD
  | REPLY_NOT_EXPECTED
  | RATE_LIMIT_EXCEEDED
  | UNRECOGNIZED_VERB
  | UNSPECIFIED
deriving DecidableEq, Repr

/-- Trace events observable through the `Trace` collaborator. -/
inductive TraceEvent
  | dropped (codeLocation : Nat) (packetId : Nat) (reason : DropReason)
  | unexpectedError (codeLocation : Nat)
deriving DecidableEq, Repr

/-! ### Association-list map helpers (for the peer map, WHOIS queue and
Expect table; the source uses `Map<K,V>` with unique keys) -/

/-- Look up a key in an association list. -/
def alist.find? {β : Type} (m : List (Nat × β)) (a : Nat) : Option β :=
  (m.find? (fun e => e.1 == a)).map Prod.snd

/-- Insert-or-replace a binding (map semantics: at most one entry per key;
the C++ `Map` assignment `m[a] = v` replaces in place, which is
observationally equal to erase-then-prepend under `alist.find?`). -/
def alist.insert {β : Type} (m : List (Nat × β)) (a : Nat) (v : β) : List (Nat × β) :=
  (a, v) :: m.eraseP (fun e => e.1 == a)

/-- The comparator `p_RootRankingComparisonOperator::operator()` from
`Topology.cpp`: `true` means `a` sorts before `b`.  Division is C++
`int64_t` division (truncation toward zero, `Int.tdiv`). -/
def rootRankingLt (a b : Peer) : Bool :=
  let alr := Int.tdiv a.lastReceive (ZT_PATH_KEEPALIVE_PERIOD / 2)
  let blr := Int.tdiv b.lastReceive (ZT_PATH_KEEPALIVE_PERIOD / 2)
  if alr < blr then true
  else if blr = alr then
    let bb := b.latency
    if bb < 0 then true else decide (bb < a.latency)
  else false

/-- Insert `x` into an already ranked list, before the first element it
compares below.  Together with `rankRootsSort` this models `std::sort`
with `p_RootRankingComparisonOperator` as a comparator-consistent sort. -/
def insertRanked (x : Peer) : List Peer → List Peer
  | [] => [x]
  | y :: t => if rootRankingLt x y then x :: y :: t else y :: insertRanked x t

/-- Comparator-consistent sort of the root list (models the `std::sort`
call in `Topology::m_rankRoots`). -/
def rankRootsSort : List Peer → List Peer
  | [] => []
  | x :: t => insertRanked x (rankRootsSort t)

/-- `Topology::m_rankRoots`: sort `m_roots` and publish the front element
as the best root (`m_bestRoot = m_roots.front()`), or clear it when the
root list is empty. -/
def m_rankRoots (roots : List Peer) : Option Peer :=
  match roots with
  | [] => none
  | _ => (rankRootsSort roots).head?

/-- The ranking order the spec (§4.5 "Root ranking") describes: most recent
quantized `last_receive` first; on ties lowest known latency first with
negative (unknown) latency worse than any known latency. -/
def specRootBetter (a b : Peer) : Bool :=
  let alr := Int.tdiv a.lastReceive (ZT_PATH_KEEPALIVE_PERIOD / 2)
  let blr := Int.tdiv b.lastReceive (ZT_PATH_KEEPALIVE_PERIOD / 2)
  if alr > blr then true
  else if alr = blr then
    if a.latency < 0 then false
    else if b.latency < 0 then true
    else decide (a.latency < b.latency)
  else false

/-- Convenience constructor for root peers in Topology examples. -/
def mkRoot (addr : Nat) (lastReceive latency : Int) : Peer :=
  { identity := { addr := addr, material := 0, valid := true }
    rawIdentityKey := 0, helloHmacKey := 0, helloDictKey := 0
    dedupRing := [], lastReceive := lastReceive, latency := latency }

/-- Condition under which `Topology::doPeriodicTasks` pass 1 collects a peer
for deletion: stale (`ticks - lastReceive > ZT_PEER_ALIVE_TIMEOUT`) and not
in the root lookup list. -/
def shouldGC (ticks : Int) (rootAddrs : List Nat) (a : Nat) (p : Peer) : Bool :=
  decide ((ticks - p.lastReceive) > ZT_PEER_ALIVE_TIMEOUT) && !(rootAddrs.contains a)

/-- Pass 1 of `Topology::doPeriodicTasks`: under a read lock, collect the
addresses of peers to delete.  Root filtering is by object identity in the
source (`rootLookup` of pointers); Topology guarantees one live `Peer`
object per address (`Topology::add`), so addresses stand in for pointers. -/
def gcCollect (ticks : Int) (peers : List (Nat × Peer)) (rootAddrs : List Nat) : List Nat :=
  (peers.filter (fun ap => shouldGC ticks rootAddrs ap.1 ap.2)).map Prod.fst

/-- Find-and-remove one map entry (the `m_peers.find` / `swap` / `erase`
step of pass 2); returns the remaining map and the swapped-out peer. -/
def eraseFind (peers : List (Nat × Peer)) (a : Nat) : List (Nat × Peer) × Option Peer :=
  match peers with
  | [] => ([], none)
  | (b, p) :: t =>
    if b = a then (t, some p)
    else
      let r := eraseFind t a
      ((b, p) :: r.1, r.2)

/-- Pass 2 of `Topology::doPeriodicTasks`: for each collected address,
re-find it under a write lock, erase it, and persist the removed peer via
`peer.save(...)` (the second component collects the saved peers). -/
def gcErase (peers : List (Nat × Peer)) : List Nat → List (Nat × Peer) × List (Nat × Peer)
  | [] => (peers, [])
  | a :: t =>
    let r := eraseFind peers a
    let rest := gcErase r.1 t
    (rest.1, (match r.2 with | some p => [(a, p)] | none => []) ++ rest.2)

/-- `Topology::doPeriodicTasks` peer GC: two-phase collect then erase+save.
Returns the new peer map and the list of peers passed to `save`. -/
def doPeriodicTasks (ticks : Int) (peers : List (Nat × Peer)) (rootAddrs : List Nat) :
    List (Nat × Peer) × List (Nat × Peer) :=
  gcErase peers (gcCollect ticks peers rootAddrs)

/-- Black-box primitives of the pipeline.  `polyMac1305None` /
`polyMac1305Salsa` give the first 8 bytes (as one integer) of the Poly1305
tag computed by `p_PolyCopyFunction` / `p_SalsaPolyCopyFunction` over the
assembled packet, keyed via `Protocol::salsa2012DeriveKey` from the peer's
raw identity key and nonced by the packet ID.  `readIdentity` /
`readInetAddress` model `Buf::rO` for the self-delimited `Identity` /
`InetAddress` marshal (returning the parsed value and/or the advanced
cursor), `dictDecode` models `Dictionary::decode` (`some isEmpty` on
success), `lz4Decompress` models `LZ4_decompress_safe` (`none` on a
negative return). -/
structure Crypto where
  polyMac1305None : Nat → Nat → Bytes → Nat
  polyMac1305Salsa : Nat → Nat → Bytes → Nat
  salsa12Decrypt : Nat → Nat → Bytes → Bytes
  lz4Decompress : Bytes → Option Bytes
  hmacSha384 : Nat → Bytes → Bytes
  aesCtrDecrypt : Nat → Bytes → Bytes → Bytes
  readIdentity : Bytes → Nat → Option (Identity × Nat)
  readInetAddress : Bytes → Nat → Option Nat
  dictDecode : Bytes → Option Bool

/-- Call environment: the `Context` collaborators plus the per-call clock.
`handlers` models the VL2 verb handlers and the VL1 handlers whose bodies
are compiled out in the source (`m_ERROR`, `m_WHOIS`, `m_RENDEZVOUS`,
`m_ECHO`, `m_PUSH_DIRECT_PATHS` are `#if 0`), which may also throw
(`Except.error`).  `defragAssemble` is the Defragmenter outcome for a
fragment feed (`some assembled` on `COMPLETE`, `none` otherwise).
`cachedPeerLoad` models `Topology::m_loadCached`; `deriveRawKey` /
`deriveHelloHmacKey` / `deriveHelloDictKey` / `peerInitOk` model
`Peer::init` key derivation from an identity; `rootAvailable` is
`topology->root()` returning a root with a viable path; `okEncodedLen`
is the cursor after marshaling the OK(HELLO) reply body (opaque
variable-length encoding). -/
structure Env where
  selfAddr : Nat
  ticks : Int
  crypto : Crypto
  handlers : Nat → Bytes → Except Unit Bool
  defragAssemble : Bytes → Option Bytes
  cachedPeerLoad : Nat → Option Peer
  deriveRawKey : Identity → Nat
  deriveHelloHmacKey : Identity → Nat
  deriveHelloDictKey : Identity → Nat
  peerInitOk : Identity → Bool
  rootAvailable : Bool
  whoisPacketId : Nat
  okEncodedLen : Nat

/-- One WHOIS-queue entry (`VL1::p_WhoisQueueItem`), value-initialized to
zeroes on first subscript of `m_whoisQueue[source]`. -/
structure WhoisQueueItem where
  waitingPacketCount : Nat
  retries : Nat
  lastRetry : Int
deriving DecidableEq, Repr

/-- Fresh (default-constructed) WHOIS queue item. -/
def WhoisQueueItem.init : WhoisQueueItem :=
  { waitingPacketCount := 0, retries := 0, lastRetry := 0 }

/-- Mutable engine state touched by `onRemotePacket`: the Topology peer
map, the WHOIS queue, and the Expect table. -/
structure VL1State where
  peers : List (Nat × Peer)
  whois : List (Nat × WhoisQueueItem)
  expect : List (Nat × Int)
deriving DecidableEq, Repr

/-- Observable effects of one `onRemotePacket` call: resulting state, Trace
events, which verb handlers were invoked, which `peer.received` liveness
updates happened, and whether the relay hook / OK(HELLO) send /
`setRemoteVersion` / WHOIS transmission fired. -/
structure Effects where
  st : VL1State
  events : List TraceEvent
  dispatched : List Nat
  receivedCalls : List (Nat × Nat)
  relayed : Bool
  okHelloSent : Bool
  remoteVersionSet : Bool
  whoisSent : Bool
deriving DecidableEq, Repr

/-- Effects of doing nothing beyond reaching a given state. -/
def Effects.base (st : VL1State) : Effects :=
  { st := st, events := [], dispatched := [], receivedCalls := [],
    relayed := false, okHelloSent := false, remoteVersionSet := false,
    whoisSent := false }

/-- Modelled from the spec: §4.6, `Expect.sending(id, now)` inserts the
outgoing packet id with its send time (`Expect.hpp` is not in the
excerpt). -/
def expectSending (tbl : List (Nat × Int)) (id : Nat) (now : Int) : List (Nat × Int) :=
  alist.insert tbl id now

/-- Modelled from the spec: §4.6, `Expect.expecting(id, now) → bool`
"returns and removes"; entries expire after a short TTL. -/
def expectExpecting (tbl : List (Nat × Int)) (id : Nat) (now : Int) :
    Bool × List (Nat × Int) :=
  match alist.find? tbl id with
  | none => (false, tbl)
  | some t => (decide (now - t < ZT_EXPECT_TTL), tbl.eraseP (fun e => e.1 == id))

/-- Result of `VL1::m_OK`. -/
structure OkResult where
  ok : Bool
  inReVerb : Nat
  events : List TraceEvent
  expect : List (Nat × Int)
deriving DecidableEq, Repr

/-- `VL1::m_OK`: read `inReVerb` (one byte) and `inRePacketId` (eight
bytes) starting at `ZT_PROTO_PACKET_PAYLOAD_START + 13`, drop as
`MALFORMED_PACKET` if the cursor overflowed the packet, then drop as
`REPLY_NOT_EXPECTED` unless `expect->expecting(inRePacketId, ticks)`;
the per-verb switch afterwards is a no-op. -/
def m_OK (expectTbl : List (Nat × Int)) (now : Int) (packetId : Nat)
    (pkt : Bytes) (packetSize : Nat) : OkResult :=
  let inReVerb := byteAt pkt (ZT_PROTO_PACKET_PAYLOAD_START + 13)
  let inRePacketId := loadBE pkt (ZT_PROTO_PACKET_PAYLOAD_START + 14) 8
  if ZT_PROTO_PACKET_PAYLOAD_START + 22 > packetSize then
    { ok := false, inReVerb := inReVerb,
      events := [.dropped 0x4c1f1ff7 packetId .MALFORMED_PACKET],
      expect := expectTbl }
  else
    let r := expectExpecting expectTbl inRePacketId now
    if !r.1 then
      { ok := false, inReVerb := inReVerb,
        events := [.dropped 0x4c1f1ff8 packetId .REPLY_NOT_EXPECTED],
        expect := r.2 }
    else { ok := true, inReVerb := inReVerb, events := [], expect := r.2 }

/-- The result of `VL1::m_HELLO`: the returned peer handle (null on drop),
the updated peer map, Trace events, and whether the OK(HELLO) reply was
sent / `setRemoteVersion` called. -/
structure HelloResult where
  ret : Option Peer
  peers : List (Nat × Peer)
  events : List TraceEvent
  okSent : Bool
  remoteVersionSet : Bool
deriving DecidableEq, Repr

/-- HELLO drop helper: null peer handle plus one Trace event. -/
def helloDrop (m : List (Nat × Peer)) (code packetId : Nat) (r : DropReason) :
    HelloResult :=
  { ret := none, peers := m, events := [.dropped code packetId r],
    okSent := false, remoteVersionSet := false }

/-- In-place header mutation before the v11+ HELLO HMAC: mask `hops`
(clear the low 3 bits of the flags byte) and zero the 8-byte MAC field. -/
def maskHopsZeroMac (pkt : Bytes) : Bytes :=
  pkt.mapIdx (fun i b =>
    if i = ZT_PROTO_PACKET_FLAGS_INDEX then b - b % 8
    else if ZT_PROTO_PACKET_MAC_INDEX ≤ i ∧ i < ZT_PROTO_PACKET_MAC_INDEX + 8 then 0
    else b)

/-- Pad-or-truncate to an exact length (AES-CTR keystream XOR is
length-preserving; the oracle's output is forced to the region length). -/
def padTruncate (l : Bytes) (n : Nat) : Bytes :=
  l.take n ++ List.replicate (n - l.length) 0

/-- `Peer::init` result for a freshly learned identity: identity plus the
deterministically derived session keys, empty dedup ring, unknown
latency. -/
def freshPeer (env : Env) (id : Identity) : Peer :=
  { identity := id, rawIdentityKey := env.deriveRawKey id,
    helloHmacKey := env.deriveHelloHmacKey id,
    helloDictKey := env.deriveHelloDictKey id,
    dedupRing := [], lastReceive := 0, latency := -1 }

/-- Modelled from the spec: `Topology::peer(cc, address, true)` — return
the in-memory peer, else load from the persistent store (inserting it into
the map, as `m_peerFromCached` does), else null (`Topology.hpp` is not in
the excerpt; `m_loadCached` / `m_peerFromCached` are in the `Topology.cpp`
excerpt). -/
def topologyPeerCreate (env : Env) (m : List (Nat × Peer)) (a : Nat) :
    Option Peer × List (Nat × Peer) :=
  match alist.find? m a with
  | some p => (some p, m)
  | none =>
    match env.cachedPeerLoad a with
    | some p => (some p, alist.insert m a p)
    | none => (none, m)

/-- `Topology::add`: insert the peer unless an entry (in-memory or
cache-loaded) already exists for its address, and return the map's entry. -/
def topologyAdd (env : Env) (m : List (Nat × Peer)) (p : Peer) :
    Peer × List (Nat × Peer) :=
  match alist.find? m p.address with
  | some hp => (hp, m)
  | none =>
    match env.cachedPeerLoad p.address with
    | some hp => (hp, alist.insert m p.address hp)
    | none => (p, alist.insert m p.address p)

/-- The find-or-create peer step of `VL1::m_HELLO` (source lines around
`topology->peer(cc, id.address(), true)`): an existing peer whose stored
identity differs from the claimed one is a `MAC_FAILED` drop; an existing
peer dedups the HELLO by packet id; a new identity must locally validate
and a fresh peer is initialized and added. -/
def helloGetPeer (env : Env) (m : List (Nat × Peer)) (id : Identity)
    (packetId : Nat) : HelloResult ⊕ (Peer × List (Nat × Peer)) :=
  match topologyPeerCreate env m id.addr with
  | (some p, m1) =>
    if p.identity ≠ id then .inl (helloDrop m1 0x707a9891 packetId .MAC_FAILED)
    else
      let d := deduplicateIncomingPacket p packetId
      let m2 := alist.insert m1 id.addr d.2
      if d.1 then
        .inl { ret := none, peers := m2, events := [],
               okSent := false, remoteVersionSet := false }
      else .inr (d.2, m2)
  | (none, m1) =>
    if !id.valid then .inl (helloDrop m1 0x707a9892 packetId .INVALID_OBJECT)
    else if !(env.peerInitOk id) then
      .inl (helloDrop m1 0x707a9893 packetId .UNSPECIFIED)
    else
      let r := topologyAdd env m1 (freshPeer env id)
      .inr (r.1, r.2)

/-- Construction and send of the OK(HELLO) reply (`Protocol::newPacket` …
`peer->send`), ending with `setRemoteVersion` and returning the peer; for
v11+ the only failure is the buffer-capacity sanity check before the
trailing HMAC, which returns a null handle without sending. -/
def helloReply (env : Env) (m : List (Nat × Peer)) (peer : Peer)
    (protoVersion : Nat) : HelloResult :=
  if 11 ≤ protoVersion ∧ env.okEncodedLen + ZT_HMACSHA384_LEN > ZT_BUF_MEM_SIZE then
    { ret := none, peers := m, events := [], okSent := false,
      remoteVersionSet := false }
  else
    { ret := some peer, peers := m, events := [], okSent := true,
      remoteVersionSet := true }

/-- Post-authentication tail of `VL1::m_HELLO`: parse `sent_to`; for v11+
skip 4 reserved bytes, and when the 12-byte AES-CTR nonce fits strictly
inside the packet decrypt the remainder in place, skip 2 reserved bytes,
read the 16-bit dictionary length, and reject a dictionary that overflows
the packet or fails to decode — both rejections return the *non-null* peer
handle after the `INVALID_OBJECT` trace.  Then build and send the OK. -/
def helloPostAuth (env : Env) (m : List (Nat × Peer)) (peer : Peer)
    (cur : Bytes) (ps : Nat) (packetId protoVersion ii1 : Nat) : HelloResult :=
  match env.crypto.readInetAddress cur ii1 with
  | none => helloDrop m 0x707a9811 packetId .INVALID_OBJECT
  | some ii2 =>
    if 11 ≤ protoVersion then
      let ii3 := ii2 + 4
      if ii3 + 12 < ps then
        let ii4 := ii3 + 12
        let nonce := (cur.drop ii3).take 12
        let region := (cur.drop ii4).take (ps - ii4)
        let dec := cur.take ii4
          ++ padTruncate (env.crypto.aesCtrDecrypt peer.helloDictKey nonce region)
               (ps - ii4)
          ++ cur.drop ps
        let ii5 := ii4 + 2
        let dictSize := loadBE dec ii5 2
        let ii6 := ii5 + 2
        if ii6 + dictSize > ps then
          { ret := some peer, peers := m,
            events := [.dropped 0x707a9815 packetId .INVALID_OBJECT],
            okSent := false, remoteVersionSet := false }
        else
          match env.crypto.dictDecode ((dec.drop ii6).take dictSize) with
          | none =>
            { ret := some peer, peers := m,
              events := [.dropped 0x707a9816 packetId .INVALID_OBJECT],
              okSent := false, remoteVersionSet := false }
          | some _ => helloReply env m peer protoVersion
      else helloReply env m peer protoVersion
    else helloReply env m peer protoVersion

/-- HELLO authentication (`VL1::m_HELLO` middle section): for
`protoVersion ≥ 11`, strip and verify the trailing HMAC-SHA-384 computed
over the packet with hops masked and the MAC field zeroed; otherwise the
legacy Poly1305 check over the encrypted section, requiring the packet to
extend past the encrypted-section start. -/
def helloAuthAndReply (env : Env) (m : List (Nat × Peer)) (peer : Peer)
    (pkt : Bytes) (packetId mac protoVersion ii1 : Nat) : HelloResult :=
  let packetSize := pkt.length
  if 11 ≤ protoVersion then
    if packetSize < ZT_HMACSHA384_LEN then
      helloDrop m 0xab9c9891 packetId .MAC_FAILED
    else
      let ps := packetSize - ZT_HMACSHA384_LEN
      let masked := maskHopsZeroMac pkt
      if env.crypto.hmacSha384 peer.helloHmacKey (masked.take ps)
          ≠ (masked.drop ps).take ZT_HMACSHA384_LEN then
        helloDrop m 0x707a9891 packetId .MAC_FAILED
      else helloPostAuth env m peer masked ps packetId protoVersion ii1
  else
    if ZT_PROTO_PACKET_ENCRYPTED_SECTION_START < packetSize then
      if mac ≠ env.crypto.polyMac1305None peer.rawIdentityKey packetId pkt then
        helloDrop m 0x11bfff82 packetId .MAC_FAILED
      else helloPostAuth env m peer pkt packetSize packetId protoVersion ii1
    else helloDrop m 0x11bfff81 packetId .MAC_FAILED

/-- `VL1::m_HELLO` on an assembled HELLO buffer: proto-version gate,
identity parse at `PAYLOAD_START + 13`, source-address consistency check,
find-or-create peer (with identity-hijack rejection and dedup),
authentication, encrypted-metadata parse, OK(HELLO) reply.  The version
triple and timestamp are fixed-offset reads that cannot fail and are
echoed into the reply; they carry no control flow. -/
def m_HELLO (env : Env) (peers0 : List (Nat × Peer)) (pkt : Bytes) : HelloResult :=
  let packetId := loadBE pkt ZT_PROTO_PACKET_ID_INDEX 8
  let mac := loadBE pkt ZT_PROTO_PACKET_MAC_INDEX 8
  let protoVersion := byteAt pkt ZT_PROTO_PACKET_PAYLOAD_START
  if protoVersion < ZT_PROTO_VERSION_MIN then
    helloDrop peers0 0x907a9891 packetId .PEER_TOO_OLD
  else
    match env.crypto.readIdentity pkt (ZT_PROTO_PACKET_PAYLOAD_START + 13) with
    | none => helloDrop peers0 0x707a9810 packetId .INVALID_OBJECT
    | some (id, ii1) =>
      if id.addr ≠ loadBE pkt ZT_PROTO_PACKET_SOURCE_INDEX 5 then
        helloDrop peers0 0x707a9010 packetId .MAC_FAILED
      else
        match helloGetPeer env peers0 id packetId with
        | .inl hr => hr
        | .inr pm => helloAuthAndReply env pm.2 pm.1 pkt packetId mac protoVersion ii1

/-- The verb dispatch switch of `onRemotePacket`: NOP does nothing but
leaves `ok = true`; HELLO and OK call the in-source handlers; USER_MESSAGE
and ENCAP return true (bodies are TODO); the remaining known verbs go to
their (external or compiled-out) handlers, which may throw; an unknown
verb is traced as `UNRECOGNIZED_VERB` with `ok` left true.  When the
handler reports ok, `peer->received` fires (recorded in
`receivedCalls`). -/
def dispatchVerb (env : Env) (st : VL1State) (packetId source verb : Nat)
    (pkt : Bytes) (pktSize : Nat) : Except Effects Effects :=
  if verb = VERB_NOP then
    .ok { Effects.base st with receivedCalls := [(source, packetId)] }
  else if verb = VERB_HELLO then
    let hr := m_HELLO env st.peers pkt
    .ok { st := { st with peers := hr.peers }, events := hr.events,
          dispatched := [VERB_HELLO],
          receivedCalls := if hr.ret.isSome then [(source, packetId)] else [],
          relayed := false, okHelloSent := hr.okSent,
          remoteVersionSet := hr.remoteVersionSet, whoisSent := false }
  else if verb = VERB_OK then
    let r := m_OK st.expect env.ticks packetId pkt pktSize
    .ok { st := { st with expect := r.expect }, events := r.events,
          dispatched := [VERB_OK],
          receivedCalls := if r.ok then [(source, packetId)] else [],
          relayed := false, okHelloSent := false, remoteVersionSet := false,
          whoisSent := false }
  else if verb = 20 ∨ verb = 23 then
    .ok { Effects.base st with
          dispatched := [verb]
          receivedCalls := [(source, packetId)] }
  else if verb = 2 ∨ verb = 4 ∨ verb = 5 ∨ verb = 6 ∨ verb = 7 ∨ verb = 8
      ∨ verb = 9 ∨ verb = 10 ∨ verb = 11 ∨ verb = 12 ∨ verb = 13 ∨ verb = 14
      ∨ verb = 16 ∨ verb = 22 then
    match env.handlers verb pkt with
    | .error _ => .error { Effects.base st with dispatched := [verb] }
    | .ok hok =>
      .ok { Effects.base st with
            dispatched := [verb]
            receivedCalls := if hok then [(source, packetId)] else [] }
  else
    .ok { Effects.base st with
          events := [.dropped 0xeeeeeff0 packetId .UNRECOGNIZED_VERB]
          receivedCalls := [(source, packetId)] }

/-- The `auth != 0` section of `onRemotePacket`: minimum-size re-check,
`peer->deduplicateIncomingPacket` (return silently on duplicate), LZ4
decompression of a compressed payload (dropping as
`INVALID_COMPRESSED_DATA` on failure or over-capacity output), then verb
dispatch. -/
def afterAuth (env : Env) (st : VL1State) (packetId source : Nat) (peer : Peer)
    (pkt : Bytes) (pktSize : Nat) : Except Effects Effects :=
  if pktSize < ZT_PROTO_MIN_PACKET_LENGTH then .ok (Effects.base st)
  else
    let d := deduplicateIncomingPacket peer packetId
    let st1 : VL1State := { st with peers := alist.insert st.peers source d.2 }
    if d.1 then .ok (Effects.base st1)
    else
      let verbFlags := byteAt pkt ZT_PROTO_PACKET_VERB_INDEX
      let verb := verbFlags % 32
      if verbFlags &&& ZT_PROTO_VERB_FLAG_COMPRESSED ≠ 0
          ∧ pktSize > ZT_PROTO_PACKET_PAYLOAD_START then
        match env.crypto.lz4Decompress
            ((pkt.drop ZT_PROTO_PACKET_PAYLOAD_START).take
              (pktSize - ZT_PROTO_PACKET_PAYLOAD_START)) with
        | some out =>
          if out.length ≤ ZT_BUF_MEM_SIZE - ZT_PROTO_PACKET_PAYLOAD_START then
            dispatchVerb env st1 packetId source verb
              (pkt.take ZT_PROTO_PACKET_PAYLOAD_START ++ out)
              (ZT_PROTO_PACKET_PAYLOAD_START + out.length)
          else
            .ok { Effects.base st1 with
                  events := [.dropped 0xee9e4392 packetId .INVALID_COMPRESSED_DATA] }
        | none =>
          .ok { Effects.base st1 with
                events := [.dropped 0xee9e4392 packetId .INVALID_COMPRESSED_DATA] }
      else dispatchVerb env st1 packetId source verb pkt pktSize

/-- `VL1::m_sendPendingWhois`: bail without a root (or root path); collect
the queue entries whose retry delay elapsed, bump their `retries` and
`lastRetry`, and when any were due, armor and send WHOIS packet(s) to the
root, registering the outgoing packet id with `expect->sending`. -/
def sendPendingWhois (env : Env) (st : VL1State) : Effects :=
  if !env.rootAvailable then Effects.base st
  else
    let due := st.whois.filter
      (fun e => decide (env.ticks - e.2.lastRetry ≥ ZT_WHOIS_RETRY_DELAY))
    let whois1 := st.whois.map (fun e =>
      if env.ticks - e.2.lastRetry ≥ ZT_WHOIS_RETRY_DELAY then
        (e.1, { e.2 with lastRetry := env.ticks, retries := e.2.retries + 1 })
      else e)
    if due.isEmpty then Effects.base { st with whois := whois1 }
    else
      { Effects.base
          { st with
            whois := whois1
            expect := expectSending st.expect env.whoisPacketId env.ticks }
        with whoisSent := true }

/-- The `auth == 0` fallback of `onRemotePacket`: when the (merged) packet
meets the minimum length, store it in the source's WHOIS queue ring slot
(count incremented), and trigger `m_sendPendingWhois` when the retry delay
for that entry has elapsed.  Undersized packets are discarded silently. -/
def whoisBranch (env : Env) (st : VL1State) (source : Nat) (asm : Bytes) : Effects :=
  if ZT_PROTO_MIN_PACKET_LENGTH ≤ asm.length ∧ asm.length ≤ ZT_BUF_MEM_SIZE then
    let wq := (alist.find? st.whois source).getD WhoisQueueItem.init
    let wq1 := { wq with waitingPacketCount := wq.waitingPacketCount + 1 }
    let st1 : VL1State := { st with whois := alist.insert st.whois source wq1 }
    if env.ticks - wq.lastRetry ≥ ZT_WHOIS_RETRY_DELAY then sendPendingWhois env st1
    else Effects.base st1
  else Effects.base st

/-- Processing of a fully assembled packet (`onRemotePacket` from the
"packet is fully assembled" comment on): read source / flags / cipher
(bits 3..4 of the flags byte, `(flags >> 3) & 3` in the source);
unencrypted-HELLO special case; per-cipher authentication for a known
source peer (`POLY1305_NONE` authenticates only, `POLY1305_SALSA2012` also
decrypts the encrypted section; `NONE` and `AES_GMAC_SIV` are TODO and
leave `auth = 0`; the `default:` arm drops as `INVALID_OBJECT`); then the
authenticated path or the WHOIS fallback. -/
def processAssembled (env : Env) (st : VL1State) (packetId : Nat) (asm : Bytes) :
    Except Effects Effects :=
  let source := loadBE asm ZT_PROTO_PACKET_SOURCE_INDEX 5
  let flags := byteAt asm ZT_PROTO_PACKET_FLAGS_INDEX
  let cipher := packetCipher flags
  if (cipher = 1 ∨ cipher = 0)
      ∧ (byteAt asm ZT_PROTO_PACKET_VERB_INDEX) % 32 = VERB_HELLO then
    if asm.length < ZT_PROTO_MIN_PACKET_LENGTH ∨ ZT_BUF_MEM_SIZE < asm.length then
      .ok (Effects.base st)
    else
      let hr := m_HELLO env st.peers asm
      .ok { st := { st with peers := hr.peers }, events := hr.events,
            dispatched := [VERB_HELLO],
            receivedCalls := if hr.ret.isSome then [(source, packetId)] else [],
            relayed := false, okHelloSent := hr.okSent,
            remoteVersionSet := hr.remoteVersionSet, whoisSent := false }
  else
    match alist.find? st.peers source with
    | some peer =>
      if cipher = 1 then
        if asm.length < ZT_PROTO_MIN_PACKET_LENGTH ∨ ZT_BUF_MEM_SIZE < asm.length then
          .ok (Effects.base st)
        else if loadBE asm ZT_PROTO_PACKET_MAC_INDEX 8
            ≠ env.crypto.polyMac1305None peer.rawIdentityKey packetId asm then
          .ok { Effects.base st with
                events := [.dropped 0xcc89c812 packetId .MAC_FAILED] }
        else afterAuth env st packetId source peer asm asm.length
      else if cipher = 2 then
        if asm.length < ZT_PROTO_MIN_PACKET_LENGTH ∨ ZT_BUF_MEM_SIZE < asm.length then
          .ok (Effects.base st)
        else if loadBE asm ZT_PROTO_PACKET_MAC_INDEX 8
            ≠ env.crypto.polyMac1305Salsa peer.rawIdentityKey packetId asm then
          .ok { Effects.base st with
                events := [.dropped 0xcc89c812 packetId .MAC_FAILED] }
        else
          afterAuth env st packetId source peer
            (asm.take ZT_PROTO_PACKET_ENCRYPTED_SECTION_START
              ++ env.crypto.salsa12Decrypt peer.rawIdentityKey packetId
                   (asm.drop ZT_PROTO_PACKET_ENCRYPTED_SECTION_START))
            asm.length
      else if cipher = 0 ∨ cipher = 3 then
        .ok (whoisBranch env st source asm)
      else
        .ok { Effects.base st with
              events := [.dropped 0x5b001099 packetId .INVALID_OBJECT] }
    | none => .ok (whoisBranch env st source asm)

/-- The body of `onRemotePacket` inside its `try` block: length gate,
destination check and relay hook, datagram classification (non-head
fragment by indicator byte, fragmented head by flags bit — both through
the Defragmenter, whose non-`COMPLETE` outcomes end processing — or the
single-packet fast path), then assembled-packet processing.  An
`Except.error` carries the effects accumulated when a handler threw. -/
def runPipeline (env : Env) (st : VL1State) (dataBytes : Bytes) :
    Except Effects Effects :=
  if dataBytes.length < ZT_PROTO_MIN_FRAGMENT_LENGTH then .ok (Effects.base st)
  else
    let packetId := loadBE dataBytes ZT_PROTO_PACKET_ID_INDEX 8
    let destination := loadBE dataBytes ZT_PROTO_PACKET_DESTINATION_INDEX 5
    if destination ≠ env.selfAddr then .ok { Effects.base st with relayed := true }
    else
      let asmOpt : Option Bytes :=
        if byteAt dataBytes ZT_PROTO_PACKET_FRAGMENT_INDICATOR_INDEX
            = ZT_PROTO_PACKET_FRAGMENT_INDICATOR then
          env.defragAssemble dataBytes
        else if dataBytes.length < ZT_PROTO_MIN_PACKET_LENGTH then none
        else if byteAt dataBytes ZT_PROTO_PACKET_FLAGS_INDEX
            &&& ZT_PROTO_FLAG_FRAGMENTED ≠ 0 then
          env.defragAssemble dataBytes
        else some dataBytes
      match asmOpt with
      | none => .ok (Effects.base st)
      | some asm => processAssembled env st packetId asm

/-- `VL1::onRemotePacket`: the whole pipeline runs inside `try { … }
catch (...) { trace->unexpectedError(0xea1b6dea, …); }`, so a handler
exception yields the effects accumulated so far plus the
`unexpectedError` trace event — never a propagated exception. -/
def onRemotePacket (env : Env) (st : VL1State) (dataBytes : Bytes) : Effects :=
  match runPipeline env st dataBytes with
  | .ok e => e
  | .error e => { e with events := e.events ++ [.unexpectedError 0xea1b6dea] }

/-! ### Concrete fixtures used by witnesses -/

/-- Example identity at address 2. -/
def exIdentity : Identity := ⟨2, 7, true⟩

/-- Example peer for address 2 with an empty dedup ring. -/
def exPeer : Peer :=
  { identity := exIdentity, rawIdentityKey := 9, helloHmacKey := 11
    helloDictKey := 12, dedupRing := [], lastReceive := 0, latency := -1 }

/-- Example crypto oracles: MACs agree (value 0), identity decoding yields
`exIdentity` with cursor 41, decryption and decompression are identities. -/
def exCrypto : Crypto :=
  { polyMac1305None := fun _ _ _ => 0
    polyMac1305Salsa := fun _ _ _ => 0
    salsa12Decrypt := fun _ _ b => b
    lz4Decompress := fun b => some b
    hmacSha384 := fun _ _ => []
    aesCtrDecrypt := fun _ _ b => b
    readIdentity := fun _ _ => some (exIdentity, 41)
    readInetAddress := fun _ i => some i
    dictDecode := fun _ => some true }

/-- Example environment: node address 1, clock 5000, handlers succeed. -/
def exEnv : Env :=
  { selfAddr := 1, ticks := 5000, crypto := exCrypto
    handlers := fun _ _ => .ok true
    defragAssemble := fun _ => none
    cachedPeerLoad := fun _ => none
    deriveRawKey := fun _ => 9
    deriveHelloHmacKey := fun _ => 11
    deriveHelloDictKey := fun _ => 12
    peerInitOk := fun _ => true
    rootAvailable := true
    whoisPacketId := 99
    okEncodedLen := 120 }

/-- Example state: the peer at address 2 is known, queues are empty. -/
def exState : VL1State := { peers := [(2, exPeer)], whois := [], expect := [] }

/-- Minimal 28-byte packet: id 1, destination 1, source 2, the given flags
byte, zero MAC field, the given verb byte. -/
def exPacket (flags verb : Nat) : Bytes :=
  [0, 0, 0, 0, 0, 0, 0, 1,
   0, 0, 0, 0, 1,
   0, 0, 0, 0, 2,
   flags,
   0, 0, 0, 0, 0, 0, 0, 0,
   verb]

/-- Environment whose Salsa/Poly1305 MAC oracle disagrees with the zero MAC
field of `exPacket` (models a tampered payload byte: the recomputed tag
differs from the stored one). -/
def exEnvBadMac : Env :=
  { exEnv with crypto := { exCrypto with polyMac1305Salsa := fun _ _ _ => 7 } }

/-! ### Claim theorems for the VL1 engine -/

/-- Effects carried by either side of the pipeline result (the `catch`
handler only appends a trace event; state and other effects are those
accumulated when the exception was thrown). -/
def exceptEffects : Except Effects Effects → Effects
  | .ok e => e
  | .error e => e

/-- Code location carried by a trace event. -/
def TraceEvent.code : TraceEvent → Nat
  | .dropped c _ _ => c
  | .unexpectedError c => c

/-- No event in the list is the unknown-cipher `INVALID_OBJECT` drop of the
`default:` arm of the cipher switch (code location `0x5b001099`). -/
def noUnknownCipherDrop (evs : List TraceEvent) : Prop :=
  ∀ ev ∈ evs, TraceEvent.code ev ≠ 0x5b001099

/-- A 50-byte OK packet whose `inRePacketId` (bytes 42..49, big-endian)
is 55. -/
def exOkPacket : Bytes := List.replicate 41 0 ++ [3] ++ [0, 0, 0, 0, 0, 0, 0, 55]

/-- Environment whose external verb handlers all throw. -/
def exEnvThrow : Env := { exEnv with handlers := fun _ _ => .error () }

/-- A 60-byte HELLO buffer: header of `exPacket` with cipher
`POLY1305_NONE` and verb HELLO, protocol version byte 12, zero filler. -/
def exHelloPacket : Bytes := exPacket 0x08 1 ++ [12] ++ List.replicate 31 0

/-- Environment whose identity decoder yields an identity claiming address
2 with *different* key material than the stored peer's identity. -/
def exEnvBadIdent : Env :=
  { exEnv with crypto :=
    { exCrypto with readIdentity := fun _ _ => some (⟨2, 8, true⟩, 41) } }

/-- Environment for the malformed-dictionary HELLO: the HMAC-SHA-384 oracle
returns exactly the packet's 48 trailing authenticator bytes (all zero in
the fixture packet), so HELLO authentication passes and processing reaches
the encrypted dictionary. -/
def exEnvHello : Env :=
  { exEnv with crypto := { exCrypto with hmacSha384 := fun _ _ => List.replicate 48 0 } }

/-- 106-byte HELLO fixture: the base header with flags `0x08` (cipher
POLY1305_NONE) and verb HELLO, protocol version byte 12, then zeros.  The
payload section is 58 bytes (106 − 48 HMAC bytes); the identity cursor 41
and InetAddress cursor 41 put the dictionary length field at offset 59,
where the packet holds zeros, so `ii6 + dictSize = 61 > 58` overflows. -/
def exHello106 : Bytes := exPacket 0x08 1 ++ [12] ++ List.replicate 77 0

theorem alist.find?_insert_self {β : Type} (m : List (Nat × β)) (a : Nat) (v : β) :
    alist.find? (alist.insert m a v) a = some v := by
  simp [alist.insert, alist.find?, List.find?_cons]

theorem alist.find?_eraseP_ne {β : Type} (m : List (Nat × β)) (a b : Nat) (hne : b ≠ a) :
    (m.eraseP (fun e => e.1 == a)).find? (fun e => e.1 == b)
      = m.find? (fun e => e.1 == b) := by
  induction m with
  | nil => simp
  | cons e t ih =>
    simp only [List.eraseP_cons]
    by_cases he : e.1 = a
    · have hp : (e.1 == a) = true := by simp [he]
      have hb : (e.1 == b) = false := by
        simp only [beq_eq_false_iff_ne, ne_eq, he]
        exact fun h => hne h.symm
      simp [hp, List.find?_cons, hb]
    · have hp : (e.1 == a) = false := by simp [he]
      by_cases hb : e.1 = b
      · have hba : (b == a) = false := hb ▸ hp
        simp [hp, hba, List.find?_cons, hb]
      · have hb' : (e.1 == b) = false := by simp [hb]
        simp [hp, List.find?_cons, hb', ih]

theorem alist.find?_insert_ne {β : Type} (m : List (Nat × β)) (a b : Nat) (v : β)
    (hne : b ≠ a) : alist.find? (alist.insert m a v) b = alist.find? m b := by
  have hb : (a == b) = false := by
    simp only [beq_eq_false_iff_ne, ne_eq]
    exact fun h => hne h.symm
  simp [alist.insert, alist.find?, List.find?_cons, hb,
    alist.find?_eraseP_ne m a b hne]

/-! ### Topology: root ranking and periodic GC (`src/unnamed/part_002`) -/

theorem gcCollect_subset_keys (ticks : Int) (t : List (Nat × Peer)) (rootAddrs : List Nat) :
    ∀ a ∈ gcCollect ticks t rootAddrs, a ∈ t.map Prod.fst := by
  intro a ha
  unfold gcCollect at ha
  rcases List.mem_map.mp ha with ⟨ap, hap, rfl⟩
  exact List.mem_map.mpr ⟨ap, List.mem_of_mem_filter hap, rfl⟩

theorem gcErase_cons_notmem (e : Nat × Peer) (ds : List Nat) :
    ∀ t : List (Nat × Peer), e.1 ∉ ds →
      gcErase (e :: t) ds = ((e :: (gcErase t ds).1), (gcErase t ds).2) := by
  induction ds with
  | nil => intro t _; rfl
  | cons a ds' ih =>
    intro t h
    have hne : e.1 ≠ a := fun hh => h (by simp [hh])
    have h' : e.1 ∉ ds' := fun hh => h (by simp [hh])
    show gcErase (e :: t) (a :: ds') = _
    have hef : eraseFind (e :: t) a
        = ((e :: (eraseFind t a).1), (eraseFind t a).2) := by
      cases e with
      | mk b p => simp [eraseFind, hne]
    simp only [gcErase, hef, ih (eraseFind t a).1 h']

theorem doPeriodicTasks_filter (ticks : Int) (rootAddrs : List Nat) :
    ∀ peers : List (Nat × Peer), (peers.map Prod.fst).Nodup →
      (doPeriodicTasks ticks peers rootAddrs).1
          = peers.filter (fun ap => !(shouldGC ticks rootAddrs ap.1 ap.2))
        ∧ (doPeriodicTasks ticks peers rootAddrs).2
          = peers.filter (fun ap => shouldGC ticks rootAddrs ap.1 ap.2) := by
  intro peers hnd
  induction peers with
  | nil => exact ⟨rfl, rfl⟩
  | cons e t ih =>
    have hnd' : (t.map Prod.fst).Nodup := (List.nodup_cons.mp hnd).2
    have hnotin : e.1 ∉ t.map Prod.fst := (List.nodup_cons.mp hnd).1
    obtain ⟨ih1, ih2⟩ := ih hnd'
    have ih1' : (gcErase t (gcCollect ticks t rootAddrs)).1
        = t.filter (fun ap => !(shouldGC ticks rootAddrs ap.1 ap.2)) := ih1
    have ih2' : (gcErase t (gcCollect ticks t rootAddrs)).2
        = t.filter (fun ap => shouldGC ticks rootAddrs ap.1 ap.2) := ih2
    by_cases hc : shouldGC ticks rootAddrs e.1 e.2 = true
    · have hcol : gcCollect ticks (e :: t) rootAddrs
          = e.1 :: gcCollect ticks t rootAddrs := by
        simp [gcCollect, List.filter_cons, hc]
      have hef : eraseFind (e :: t) e.1 = (t, some e.2) := by
        cases e with
        | mk a p => simp [eraseFind]
      have hstep : doPeriodicTasks ticks (e :: t) rootAddrs
          = ((gcErase t (gcCollect ticks t rootAddrs)).1,
             (e.1, e.2) :: (gcErase t (gcCollect ticks t rootAddrs)).2) := by
        show gcErase (e :: t) (gcCollect ticks (e :: t) rootAddrs) = _
        rw [hcol]
        simp [gcErase, hef]
      rw [hstep, ih1', ih2']
      constructor
      · simp [List.filter_cons, hc]
      · simp [List.filter_cons, hc]
    · have hcf : shouldGC ticks rootAddrs e.1 e.2 = false :=
        Bool.not_eq_true _ ▸ eq_false_of_ne_true hc
      have hcol : gcCollect ticks (e :: t) rootAddrs = gcCollect ticks t rootAddrs := by
        simp [gcCollect, List.filter_cons, hcf]
      have hnotds : e.1 ∉ gcCollect ticks t rootAddrs := fun hmem =>
        hnotin (gcCollect_subset_keys ticks t rootAddrs e.1 hmem)
      have hstep : doPeriodicTasks ticks (e :: t) rootAddrs
          = ((e :: (gcErase t (gcCollect ticks t rootAddrs)).1),
             (gcErase t (gcCollect ticks t rootAddrs)).2) := by
        show gcErase (e :: t) (gcCollect ticks (e :: t) rootAddrs) = _
        rw [hcol]
        exact gcErase_cons_notmem e (gcCollect ticks t rootAddrs) t hnotds
      rw [hstep, ih1', ih2']
      constructor
      · simp [List.filter_cons, hcf]
      · simp [List.filter_cons, hcf]

/-- C5: `Topology.doPeriodicTasks` removes exactly the peers whose
`ticks − lastReceive` strictly exceeds `ZT_PEER_ALIVE_TIMEOUT` and that are
not in the root list — in particular a root is never removed, whatever its
`lastReceive` — and every removed peer (and only those) is handed to
`peer.save(...)`. -/
theorem claim_C5_periodic_gc (ticks : Int) (peers : List (Nat × Peer))
    (rootAddrs : List Nat) (hnd : (peers.map Prod.fst).Nodup) :
    (doPeriodicTasks ticks peers rootAddrs).1
        = peers.filter (fun ap =>
            !(decide ((ticks - ap.2.lastReceive) > ZT_PEER_ALIVE_TIMEOUT)
              && !(rootAddrs.contains ap.1)))
      ∧ (doPeriodicTasks ticks peers rootAddrs).2
          = peers.filter (fun ap =>
              decide ((ticks - ap.2.lastReceive) > ZT_PEER_ALIVE_TIMEOUT)
                && !(rootAddrs.contains ap.1))
      ∧ (∀ ap ∈ peers, ap.1 ∈ rootAddrs →
          ap ∈ (doPeriodicTasks ticks peers rootAddrs).1) := by
  obtain ⟨h1, h2⟩ := doPeriodicTasks_filter ticks rootAddrs peers hnd
  refine ⟨h1, h2, ?_⟩
  intro ap hap hroot
  rw [h1]
  refine List.mem_filter.mpr ⟨hap, ?_⟩
  simp only [shouldGC, Bool.not_eq_true', Bool.and_eq_false_iff]
  right
  simpa using hroot

/-- Witness for C5 at a concrete peer map: a stale root (address 1) is kept,
a stale non-root (address 2) is removed and saved, a fresh non-root
(address 3) is kept. -/
theorem claim_C5_periodic_gc_witness :
    (([(1, mkRoot 1 0 0), (2, mkRoot 2 0 0), (3, mkRoot 3 650000 0)].map
        (Prod.fst (β := Peer))).Nodup)
    ∧ (doPeriodicTasks 700000
          [(1, mkRoot 1 0 0), (2, mkRoot 2 0 0), (3, mkRoot 3 650000 0)] [1]).1
        = [(1, mkRoot 1 0 0), (3, mkRoot 3 650000 0)]
    ∧ (doPeriodicTasks 700000
          [(1, mkRoot 1 0 0), (2, mkRoot 2 0 0), (3, mkRoot 3 650000 0)] [1]).2
        = [(2, mkRoot 2 0 0)] := by
  refine ⟨by decide, ?_, ?_⟩
  · rw [(claim_C5_periodic_gc 700000
      [(1, mkRoot 1 0 0), (2, mkRoot 2 0 0), (3, mkRoot 3 650000 0)] [1] (by decide)).1]
    decide
  · rw [(claim_C5_periodic_gc 700000
      [(1, mkRoot 1 0 0), (2, mkRoot 2 0 0), (3, mkRoot 3 650000 0)] [1]
      (by decide)).2.1]
    decide

/-- C4 (code bug): the root ranking comparator orders the *least* recently
heard root first (`alr < blr → a before b`) and, on quantized-time ties,
the *higher*-latency root first (`b.latency < a.latency → a before b`),
so `Topology.root()` (= the sorted list's front) returns a root the spec's
order ranks last: with a stale root and a fresh root the stale one is
published as best, and on ties the slowest is published as best —
contradicting the comment above the comparator ("which root has spoken most
recently … fastest root is ranked first") and spec §4.5. -/
theorem claim_C4_root_ranking_codebug :
    rootRankingLt (mkRoot 2 0 100) (mkRoot 1 100000 5) = true
    ∧ m_rankRoots [mkRoot 1 100000 5, mkRoot 2 0 100] = some (mkRoot 2 0 100)
    ∧ specRootBetter (mkRoot 1 100000 5) (mkRoot 2 0 100) = true
    ∧ m_rankRoots [mkRoot 4 100000 1, mkRoot 3 100000 500] = some (mkRoot 3 100000 500)
    ∧ specRootBetter (mkRoot 4 100000 1) (mkRoot 3 100000 500) = true := by
  decide

/-! ### VL1 engine (`src/attic/core/VL1.cpp`)

Cryptographic primitives and external marshaled formats are oracle
functions (spec §1 lists them as non-goals / black boxes); everything
consuming their results below is translated from `VL1.cpp`. -/

theorem runPipeline_fastpath (env : Env) (st : VL1State) (dataBytes : Bytes)
    (h16 : ¬ dataBytes.length < ZT_PROTO_MIN_FRAGMENT_LENGTH)
    (hdst : loadBE dataBytes ZT_PROTO_PACKET_DESTINATION_INDEX 5 = env.selfAddr)
    (hfrag : ¬ byteAt dataBytes ZT_PROTO_PACKET_FRAGMENT_INDICATOR_INDEX
        = ZT_PROTO_PACKET_FRAGMENT_INDICATOR)
    (h28 : ¬ dataBytes.length < ZT_PROTO_MIN_PACKET_LENGTH)
    (hfl : ¬ byteAt dataBytes ZT_PROTO_PACKET_FLAGS_INDEX
        &&& ZT_PROTO_FLAG_FRAGMENTED ≠ 0) :
    runPipeline env st dataBytes
      = processAssembled env st (loadBE dataBytes ZT_PROTO_PACKET_ID_INDEX 8)
          dataBytes := by
  simp only [runPipeline]
  rw [if_neg h16, if_neg (fun hc => hc hdst), if_neg hfrag, if_neg h28, if_neg hfl]

/-- C1: a packet with cipher `POLY1305_SALSA2012` from a known peer whose
recomputed Poly1305 tag (first 8 bytes) differs from the packet's MAC field
is dropped with `incomingPacketDropped(0xcc89c812, MAC_FAILED)`; no verb
handler or upper-layer call is made and `peer->received` is not called
(state unchanged). -/
theorem claim_C1_salsa_mac_failed (env : Env) (st : VL1State) (dataBytes : Bytes)
    (peer : Peer)
    (hlen1 : ZT_PROTO_MIN_PACKET_LENGTH ≤ dataBytes.length)
    (hlen2 : dataBytes.length ≤ ZT_BUF_MEM_SIZE)
    (hdst : loadBE dataBytes ZT_PROTO_PACKET_DESTINATION_INDEX 5 = env.selfAddr)
    (hfrag : byteAt dataBytes ZT_PROTO_PACKET_FRAGMENT_INDICATOR_INDEX
        ≠ ZT_PROTO_PACKET_FRAGMENT_INDICATOR)
    (hfl : byteAt dataBytes ZT_PROTO_PACKET_FLAGS_INDEX
        &&& ZT_PROTO_FLAG_FRAGMENTED = 0)
    (hciph : packetCipher (byteAt dataBytes ZT_PROTO_PACKET_FLAGS_INDEX) = 2)
    (hpeer : alist.find? st.peers (loadBE dataBytes ZT_PROTO_PACKET_SOURCE_INDEX 5)
        = some peer)
    (hmac : loadBE dataBytes ZT_PROTO_PACKET_MAC_INDEX 8
        ≠ env.crypto.polyMac1305Salsa peer.rawIdentityKey
            (loadBE dataBytes ZT_PROTO_PACKET_ID_INDEX 8) dataBytes) :
    onRemotePacket env st dataBytes
      = { Effects.base st with
          events := [.dropped 0xcc89c812
            (loadBE dataBytes ZT_PROTO_PACKET_ID_INDEX 8) .MAC_FAILED] } := by
  have hroute := runPipeline_fastpath env st dataBytes
    (by simp only [ZT_PROTO_MIN_PACKET_LENGTH] at hlen1
        simp only [ZT_PROTO_MIN_FRAGMENT_LENGTH]
        omega)
    hdst hfrag (by omega) (by simp [hfl])
  unfold onRemotePacket
  rw [hroute]
  simp only [processAssembled, hciph]
  rw [if_neg (by simp [VERB_HELLO]), hpeer]
  have hsz : ¬(dataBytes.length < ZT_PROTO_MIN_PACKET_LENGTH
      ∨ ZT_BUF_MEM_SIZE < dataBytes.length) := by omega
  simp [hsz, hmac]

/-- Witness for C1: the concrete tampered packet (flags `0x10` = cipher 2,
verb FRAME) from known peer 2 yields exactly the `MAC_FAILED` drop and
nothing else. -/
theorem claim_C1_salsa_mac_failed_witness :
    onRemotePacket exEnvBadMac exState (exPacket 0x10 6)
      = { Effects.base exState with
          events := [.dropped 0xcc89c812 1 .MAC_FAILED] } := by
  have h := claim_C1_salsa_mac_failed exEnvBadMac exState (exPacket 0x10 6) exPeer
    (by decide) (by decide) (by decide) (by decide) (by decide) (by decide)
    (by decide) (by decide)
  rw [h]
  decide

theorem dedup_already (p : Peer) (id : Nat) (h : p.dedupRing.contains id = true) :
    deduplicateIncomingPacket p id = (true, p) := by
  unfold deduplicateIncomingPacket
  rw [h]
  simp

theorem dedup_fresh (p : Peer) (id : Nat) (h : p.dedupRing.contains id = false) :
    deduplicateIncomingPacket p id
      = (false, { p with
          dedupRing := (id :: p.dedupRing).take ZT_PEER_DEDUP_WINDOW }) := by
  unfold deduplicateIncomingPacket
  rw [h]
  simp

theorem onRemotePacket_st (env : Env) (st : VL1State) (dataBytes : Bytes) :
    (onRemotePacket env st dataBytes).st
      = (exceptEffects (runPipeline env st dataBytes)).st := by
  cases h : runPipeline env st dataBytes with
  | ok e => simp [onRemotePacket, exceptEffects, h]
  | error e => simp [onRemotePacket, exceptEffects, h]

theorem dispatchVerb_st_peers (env : Env) (st : VL1State)
    (packetId source verb : Nat) (pkt : Bytes) (pktSize : Nat)
    (hv : verb ≠ VERB_HELLO) :
    (exceptEffects (dispatchVerb env st packetId source verb pkt pktSize)).st.peers
      = st.peers := by
  unfold dispatchVerb
  by_cases h0 : verb = VERB_NOP
  · simp [h0, exceptEffects, Effects.base]
  · rw [if_neg h0, if_neg hv]
    by_cases h3 : verb = VERB_OK
    · simp [h3, exceptEffects, Effects.base]
    · rw [if_neg h3]
      by_cases h20 : verb = 20 ∨ verb = 23
      · rw [if_pos h20]; rfl
      · rw [if_neg h20]
        by_cases hh : verb = 2 ∨ verb = 4 ∨ verb = 5 ∨ verb = 6 ∨ verb = 7
            ∨ verb = 8 ∨ verb = 9 ∨ verb = 10 ∨ verb = 11 ∨ verb = 12
            ∨ verb = 13 ∨ verb = 14 ∨ verb = 16 ∨ verb = 22
        · rw [if_pos hh]
          cases hr : env.handlers verb pkt <;>
            simp [hr, exceptEffects, Effects.base]
        · rw [if_neg hh]; rfl

theorem afterAuth_st_peers (env : Env) (st : VL1State) (packetId source : Nat)
    (peer : Peer) (pkt : Bytes) (pktSize : Nat)
    (hsz : ¬ pktSize < ZT_PROTO_MIN_PACKET_LENGTH)
    (hverb : (byteAt pkt ZT_PROTO_PACKET_VERB_INDEX) % 32 ≠ VERB_HELLO) :
    (exceptEffects (afterAuth env st packetId source peer pkt pktSize)).st.peers
      = alist.insert st.peers source
          (deduplicateIncomingPacket peer packetId).2 := by
  unfold afterAuth
  rw [if_neg hsz]
  by_cases hdup : (deduplicateIncomingPacket peer packetId).1 = true
  · rw [if_pos hdup]; rfl
  · rw [if_neg hdup]
    by_cases hcomp : byteAt pkt ZT_PROTO_PACKET_VERB_INDEX
        &&& ZT_PROTO_VERB_FLAG_COMPRESSED ≠ 0
        ∧ pktSize > ZT_PROTO_PACKET_PAYLOAD_START
    · rw [if_pos hcomp]
      split
      · split
        · exact dispatchVerb_st_peers env _ packetId source _ _ _ hverb
        · rfl
      · rfl
    · rw [if_neg hcomp]
      exact dispatchVerb_st_peers env _ packetId source _ _ _ hverb

/-- C2: replay suppression.  A cipher-`POLY1305_SALSA2012` packet from a
known peer that authenticates is recorded in the peer's dedup ring after
authentication and before dispatch; delivering the same packet (same
packet id) again within the dedup window dispatches no verb handler, makes
no `peer->received` call and emits no trace event. -/
theorem claim_C2_dedup_replay (env : Env) (st : VL1State) (dataBytes : Bytes)
    (peer : Peer)
    (hlen1 : ZT_PROTO_MIN_PACKET_LENGTH ≤ dataBytes.length)
    (hlen2 : dataBytes.length ≤ ZT_BUF_MEM_SIZE)
    (hdst : loadBE dataBytes ZT_PROTO_PACKET_DESTINATION_INDEX 5 = env.selfAddr)
    (hfrag : byteAt dataBytes ZT_PROTO_PACKET_FRAGMENT_INDICATOR_INDEX
        ≠ ZT_PROTO_PACKET_FRAGMENT_INDICATOR)
    (hfl : byteAt dataBytes ZT_PROTO_PACKET_FLAGS_INDEX
        &&& ZT_PROTO_FLAG_FRAGMENTED = 0)
    (hciph : packetCipher (byteAt dataBytes ZT_PROTO_PACKET_FLAGS_INDEX) = 2)
    (hpeer : alist.find? st.peers (loadBE dataBytes ZT_PROTO_PACKET_SOURCE_INDEX 5)
        = some peer)
    (hnotdup : peer.dedupRing.contains
        (loadBE dataBytes ZT_PROTO_PACKET_ID_INDEX 8) = false)
    (hmac : loadBE dataBytes ZT_PROTO_PACKET_MAC_INDEX 8
        = env.crypto.polyMac1305Salsa peer.rawIdentityKey
            (loadBE dataBytes ZT_PROTO_PACKET_ID_INDEX 8) dataBytes)
    (hverb : (byteAt (dataBytes.take ZT_PROTO_PACKET_ENCRYPTED_SECTION_START
          ++ env.crypto.salsa12Decrypt peer.rawIdentityKey
              (loadBE dataBytes ZT_PROTO_PACKET_ID_INDEX 8)
              (dataBytes.drop ZT_PROTO_PACKET_ENCRYPTED_SECTION_START))
        ZT_PROTO_PACKET_VERB_INDEX) % 32 ≠ VERB_HELLO) :
    (onRemotePacket env (onRemotePacket env st dataBytes).st dataBytes).dispatched = []
    ∧ (onRemotePacket env (onRemotePacket env st dataBytes).st dataBytes).receivedCalls
        = []
    ∧ (onRemotePacket env (onRemotePacket env st dataBytes).st dataBytes).events
        = [] := by
  have h16 : ¬ dataBytes.length < ZT_PROTO_MIN_FRAGMENT_LENGTH := by
    simp only [ZT_PROTO_MIN_PACKET_LENGTH] at hlen1
    simp only [ZT_PROTO_MIN_FRAGMENT_LENGTH]
    omega
  have hflag : ¬ byteAt dataBytes ZT_PROTO_PACKET_FLAGS_INDEX
      &&& ZT_PROTO_FLAG_FRAGMENTED ≠ 0 := by simp [hfl]
  have hroute := runPipeline_fastpath env st dataBytes h16 hdst hfrag (by omega) hflag
  have hsz : ¬(dataBytes.length < ZT_PROTO_MIN_PACKET_LENGTH
      ∨ ZT_BUF_MEM_SIZE < dataBytes.length) := by omega
  have hd := dedup_fresh peer (loadBE dataBytes ZT_PROTO_PACKET_ID_INDEX 8) hnotdup
  have hproc : processAssembled env st (loadBE dataBytes ZT_PROTO_PACKET_ID_INDEX 8)
        dataBytes
      = afterAuth env st (loadBE dataBytes ZT_PROTO_PACKET_ID_INDEX 8)
          (loadBE dataBytes ZT_PROTO_PACKET_SOURCE_INDEX 5) peer
          (dataBytes.take ZT_PROTO_PACKET_ENCRYPTED_SECTION_START
            ++ env.crypto.salsa12Decrypt peer.rawIdentityKey
                (loadBE dataBytes ZT_PROTO_PACKET_ID_INDEX 8)
                (dataBytes.drop ZT_PROTO_PACKET_ENCRYPTED_SECTION_START))
          dataBytes.length := by
    simp only [processAssembled, hciph]
    rw [if_neg (by simp [VERB_HELLO]), hpeer]
    simp only [show ¬((2:Nat) = 1) by omega, if_false, if_true, if_neg hsz,
      if_neg (not_not_intro hmac)]
  have h1 : (onRemotePacket env st dataBytes).st.peers
      = alist.insert st.peers (loadBE dataBytes ZT_PROTO_PACKET_SOURCE_INDEX 5)
          (deduplicateIncomingPacket peer
            (loadBE dataBytes ZT_PROTO_PACKET_ID_INDEX 8)).2 := by
    rw [onRemotePacket_st, hroute, hproc]
    exact afterAuth_st_peers env st _ _ peer _ _ (by omega) hverb
  have hfind2 : alist.find?
      ((onRemotePacket env st dataBytes).st.peers)
      (loadBE dataBytes ZT_PROTO_PACKET_SOURCE_INDEX 5)
      = some (deduplicateIncomingPacket peer
          (loadBE dataBytes ZT_PROTO_PACKET_ID_INDEX 8)).2 := by
    rw [h1]
    exact alist.find?_insert_self _ _ _
  have hd2key : (deduplicateIncomingPacket peer
      (loadBE dataBytes ZT_PROTO_PACKET_ID_INDEX 8)).2.rawIdentityKey
      = peer.rawIdentityKey := by rw [hd]
  have hd2ring : (deduplicateIncomingPacket peer
      (loadBE dataBytes ZT_PROTO_PACKET_ID_INDEX 8)).2.dedupRing.contains
        (loadBE dataBytes ZT_PROTO_PACKET_ID_INDEX 8) = true := by
    rw [hd]
    simp [ZT_PEER_DEDUP_WINDOW, List.take_succ_cons]
  have hroute2 := runPipeline_fastpath env (onRemotePacket env st dataBytes).st
    dataBytes h16 hdst hfrag (by omega) hflag
  have hproc2 : processAssembled env (onRemotePacket env st dataBytes).st
        (loadBE dataBytes ZT_PROTO_PACKET_ID_INDEX 8) dataBytes
      = .ok (Effects.base
          { (onRemotePacket env st dataBytes).st with
            peers := alist.insert (onRemotePacket env st dataBytes).st.peers
              (loadBE dataBytes ZT_PROTO_PACKET_SOURCE_INDEX 5)
              (deduplicateIncomingPacket peer
                (loadBE dataBytes ZT_PROTO_PACKET_ID_INDEX 8)).2 }) := by
    simp only [processAssembled, hciph]
    rw [if_neg (by simp [VERB_HELLO]), hfind2]
    simp only [show ¬((2:Nat) = 1) by omega, if_false, if_true, if_neg hsz,
      if_neg (not_not_intro (hd2key ▸ hmac))]
    unfold afterAuth
    rw [if_neg (by omega), dedup_already _ _ hd2ring]
    simp
  generalize hR : (onRemotePacket env st dataBytes).st = R1 at hroute2 hproc2 ⊢
  have hfin : onRemotePacket env R1 dataBytes
      = Effects.base
          { R1 with
            peers := alist.insert R1.peers
              (loadBE dataBytes ZT_PROTO_PACKET_SOURCE_INDEX 5)
              (deduplicateIncomingPacket peer
                (loadBE dataBytes ZT_PROTO_PACKET_ID_INDEX 8)).2 } := by
    unfold onRemotePacket
    rw [hroute2, hproc2]
  rw [hfin]
  exact ⟨rfl, rfl, rfl⟩

/-- Witness for C2: the valid FRAME packet from peer 2 is dispatched and
counted once; its immediate replay dispatches nothing, calls no
`peer->received`, and emits no trace event. -/
theorem claim_C2_dedup_replay_witness :
    (onRemotePacket exEnv exState (exPacket 0x10 6)).dispatched = [6]
    ∧ (onRemotePacket exEnv exState (exPacket 0x10 6)).receivedCalls = [(2, 1)]
    ∧ (onRemotePacket exEnv
        (onRemotePacket exEnv exState (exPacket 0x10 6)).st
        (exPacket 0x10 6)).dispatched = []
    ∧ (onRemotePacket exEnv
        (onRemotePacket exEnv exState (exPacket 0x10 6)).st
        (exPacket 0x10 6)).receivedCalls = [] := by
  have h := claim_C2_dedup_replay exEnv exState (exPacket 0x10 6) exPeer
    (by decide) (by decide) (by decide) (by decide) (by decide) (by decide)
    (by decide) (by decide) (by decide) (by decide)
  exact ⟨by decide, by decide, h.1, h.2.1⟩

theorem noUnknownCipherDrop_m_OK (tbl : List (Nat × Int)) (now : Int)
    (packetId : Nat) (pkt : Bytes) (ps : Nat) :
    noUnknownCipherDrop (m_OK tbl now packetId pkt ps).events := by
  intro ev hev
  simp only [m_OK] at hev
  repeat' split at hev
  all_goals simp_all [TraceEvent.code]

theorem noUnknownCipherDrop_helloReply (env : Env) (m : List (Nat × Peer))
    (peer : Peer) (pv : Nat) :
    noUnknownCipherDrop (helloReply env m peer pv).events := by
  intro ev hev
  simp only [helloReply] at hev
  repeat' split at hev
  all_goals simp_all

theorem noUnknownCipherDrop_helloPostAuth (env : Env) (m : List (Nat × Peer))
    (peer : Peer) (cur : Bytes) (ps packetId pv ii1 : Nat) :
    noUnknownCipherDrop (helloPostAuth env m peer cur ps packetId pv ii1).events := by
  intro ev hev
  simp only [helloPostAuth] at hev
  repeat' split at hev
  all_goals first
    | exact noUnknownCipherDrop_helloReply env m peer pv ev hev
    | simp_all [helloDrop, TraceEvent.code]

theorem noUnknownCipherDrop_helloAuthAndReply (env : Env) (m : List (Nat × Peer))
    (peer : Peer) (pkt : Bytes) (packetId mac pv ii1 : Nat) :
    noUnknownCipherDrop (helloAuthAndReply env m peer pkt packetId mac pv ii1).events := by
  intro ev hev
  simp only [helloAuthAndReply] at hev
  repeat' split at hev
  all_goals first
    | exact noUnknownCipherDrop_helloPostAuth env m peer _ _ packetId pv ii1 ev hev
    | simp_all [helloDrop, TraceEvent.code]

theorem noUnknownCipherDrop_helloGetPeer_inl (env : Env)
    (m : List (Nat × Peer)) (id : Identity) (packetId : Nat) (hr : HelloResult)
    (h : helloGetPeer env m id packetId = .inl hr) :
    noUnknownCipherDrop hr.events := by
  intro ev hev
  simp only [helloGetPeer] at h
  repeat' split at h
  all_goals first
    | (injection h with h; subst h; simp_all [helloDrop, TraceEvent.code])
    | injection h

theorem noUnknownCipherDrop_m_HELLO (env : Env) (peers0 : List (Nat × Peer))
    (pkt : Bytes) :
    noUnknownCipherDrop (m_HELLO env peers0 pkt).events := by
  intro ev hev
  simp only [m_HELLO] at hev
  repeat' split at hev
  all_goals first
    | exact noUnknownCipherDrop_helloAuthAndReply env _ _ pkt _ _ _ _ ev hev
    | exact noUnknownCipherDrop_helloGetPeer_inl env _ _ _ _ (by assumption) ev hev
    | simp_all [helloDrop, TraceEvent.code]

theorem noUnknownCipherDrop_dispatchVerb (env : Env) (st : VL1State)
    (packetId source verb : Nat) (pkt : Bytes) (pktSize : Nat) :
    noUnknownCipherDrop (exceptEffects
      (dispatchVerb env st packetId source verb pkt pktSize)).events := by
  intro ev hev
  simp only [dispatchVerb] at hev
  repeat' split at hev
  all_goals first
    | exact noUnknownCipherDrop_m_HELLO env st.peers pkt ev hev
    | exact noUnknownCipherDrop_m_OK st.expect env.ticks packetId pkt pktSize ev hev
    | simp_all [exceptEffects, Effects.base, TraceEvent.code]

theorem noUnknownCipherDrop_afterAuth (env : Env) (st : VL1State)
    (packetId source : Nat) (peer : Peer) (pkt : Bytes) (pktSize : Nat) :
    noUnknownCipherDrop (exceptEffects
      (afterAuth env st packetId source peer pkt pktSize)).events := by
  intro ev hev
  simp only [afterAuth] at hev
  repeat' split at hev
  all_goals first
    | exact noUnknownCipherDrop_dispatchVerb env _ packetId source _ _ _ ev hev
    | simp_all [exceptEffects, Effects.base, TraceEvent.code]

theorem noUnknownCipherDrop_whoisBranch (env : Env) (st : VL1State)
    (source : Nat) (asm : Bytes) :
    noUnknownCipherDrop (whoisBranch env st source asm).events := by
  intro ev hev
  simp only [whoisBranch, sendPendingWhois] at hev
  repeat' split at hev
  all_goals simp_all [Effects.base]

theorem noUnknownCipherDrop_processAssembled (env : Env) (st : VL1State)
    (packetId : Nat) (asm : Bytes) :
    noUnknownCipherDrop (exceptEffects
      (processAssembled env st packetId asm)).events := by
  have hc : packetCipher (byteAt asm ZT_PROTO_PACKET_FLAGS_INDEX) < 4 := by
    unfold packetCipher
    omega
  intro ev hev
  simp only [processAssembled] at hev
  repeat' split at hev
  all_goals first
    | exact noUnknownCipherDrop_afterAuth env st packetId _ _ _ _ ev hev
    | exact noUnknownCipherDrop_whoisBranch env st _ asm ev hev
    | exact noUnknownCipherDrop_m_HELLO env st.peers asm ev hev
    | (simp_all [exceptEffects, Effects.base, TraceEvent.code]; omega)
    | simp_all [exceptEffects, Effects.base, TraceEvent.code]

theorem noUnknownCipherDrop_runPipeline (env : Env) (st : VL1State)
    (dataBytes : Bytes) :
    noUnknownCipherDrop (exceptEffects (runPipeline env st dataBytes)).events := by
  intro ev hev
  simp only [runPipeline] at hev
  repeat' split at hev
  all_goals first
    | exact noUnknownCipherDrop_processAssembled env st _ _ ev hev
    | simp_all [exceptEffects, Effects.base]

/-- C6 counterexample: the claim reads the cipher from bits 3..5.  For
flags byte `0x20` that three-bit field is 4 — not one of the four defined
ciphers, so per the claim the packet must be dropped with
`INVALID_OBJECT` — but the code computes `(0x20 >> 3) & 3 = 0` (cipher
`NONE`), emits no trace event at all, and queues the packet for WHOIS
instead; flags `0x20` and `0x00` are not distinguishable. -/
theorem claim_C6_counterexample :
    specCipherField (byteAt (exPacket 0x20 6) ZT_PROTO_PACKET_FLAGS_INDEX) = 4
    ∧ packetCipher (byteAt (exPacket 0x20 6) ZT_PROTO_PACKET_FLAGS_INDEX) = 0
    ∧ packetCipher 0x20 = packetCipher 0x00
    ∧ (onRemotePacket exEnv exState (exPacket 0x20 6)).events = []
    ∧ alist.find? (onRemotePacket exEnv exState (exPacket 0x20 6)).st.whois 2
        = some { waitingPacketCount := 1, retries := 1, lastRetry := 5000 } := by
  decide

/-- C6 amended: the cipher identifier is read from bits 3..4 of the flags
byte (`(flags >> 3) & 3`, a two-bit field), so only the values 0–3 can
arise and the unknown-cipher `INVALID_OBJECT` drop (`default:` arm, code
location `0x5b001099`) is unreachable for every input. -/
theorem claim_C6_cipher_field_amended :
    (∀ flags : Nat, packetCipher flags < 4)
    ∧ ∀ (env : Env) (st : VL1State) (dataBytes : Bytes),
        noUnknownCipherDrop (onRemotePacket env st dataBytes).events := by
  constructor
  · intro flags
    unfold packetCipher
    omega
  · intro env st dataBytes ev hev
    have h := noUnknownCipherDrop_runPipeline env st dataBytes
    unfold onRemotePacket at hev
    revert hev
    cases hh : runPipeline env st dataBytes with
    | ok e =>
      intro hev
      exact h ev (by rw [hh] at *; exact hev)
    | error e =>
      intro hev
      rw [hh] at h
      simp only [List.mem_append] at hev
      rcases hev with hev | hev
      · exact h ev hev
      · simp only [List.mem_singleton] at hev
        subst hev
        simp [TraceEvent.code]

/-- Witness for the amended C6 at a concrete packet: the all-clear flags
byte 0 gives cipher 0 and the pipeline result holds no `0x5b001099`
event. -/
theorem claim_C6_cipher_field_amended_witness :
    packetCipher 0x20 < 4
    ∧ noUnknownCipherDrop (onRemotePacket exEnv exState (exPacket 0x20 6)).events :=
  ⟨claim_C6_cipher_field_amended.1 0x20,
   claim_C6_cipher_field_amended.2 exEnv exState (exPacket 0x20 6)⟩

theorem sendPendingWhois_head_due (env : Env) (st : VL1State) (src : Nat)
    (w : WhoisQueueItem) (rest : List (Nat × WhoisQueueItem))
    (hw : st.whois = (src, w) :: rest)
    (hdue : env.ticks - w.lastRetry ≥ ZT_WHOIS_RETRY_DELAY)
    (hroot : env.rootAvailable = true) :
    sendPendingWhois env st
      = { Effects.base
            { st with
              whois := ((src, { w with
                  retries := w.retries + 1
                  lastRetry := env.ticks })
                :: rest.map (fun e =>
                    if env.ticks - e.2.lastRetry ≥ ZT_WHOIS_RETRY_DELAY then
                      (e.1, { e.2 with
                        retries := e.2.retries + 1
                        lastRetry := env.ticks })
                    else e))
              expect := expectSending st.expect env.whoisPacketId env.ticks }
          with whoisSent := true } := by
  unfold sendPendingWhois
  rw [if_neg (by simp [hroot]), hw]
  simp [List.filter_cons, List.map_cons, hdue, List.isEmpty_cons, Effects.base]

/-- C9 (implicit): a packet from a *known* source peer whose cipher is
`NONE` (0) or `AES_GMAC_SIV` (3) — both `TODO` in the source, leaving
`auth = 0` — with a verb other than HELLO is neither dispatched nor
dropped with any trace reason: it is stored in `whois_queue[source]`
(waiting-packet count incremented), and when the retry delay has elapsed
and a root is available an outbound WHOIS is sent for the already-known
address. -/
theorem claim_C9_unimplemented_cipher_whois (env : Env) (st : VL1State)
    (dataBytes : Bytes) (peer : Peer)
    (hlen1 : ZT_PROTO_MIN_PACKET_LENGTH ≤ dataBytes.length)
    (hlen2 : dataBytes.length ≤ ZT_BUF_MEM_SIZE)
    (hdst : loadBE dataBytes ZT_PROTO_PACKET_DESTINATION_INDEX 5 = env.selfAddr)
    (hfrag : byteAt dataBytes ZT_PROTO_PACKET_FRAGMENT_INDICATOR_INDEX
        ≠ ZT_PROTO_PACKET_FRAGMENT_INDICATOR)
    (hfl : byteAt dataBytes ZT_PROTO_PACKET_FLAGS_INDEX
        &&& ZT_PROTO_FLAG_FRAGMENTED = 0)
    (hciph : packetCipher (byteAt dataBytes ZT_PROTO_PACKET_FLAGS_INDEX) = 0
        ∨ packetCipher (byteAt dataBytes ZT_PROTO_PACKET_FLAGS_INDEX) = 3)
    (hnothello : (byteAt dataBytes ZT_PROTO_PACKET_VERB_INDEX) % 32 ≠ VERB_HELLO)
    (hpeer : alist.find? st.peers (loadBE dataBytes ZT_PROTO_PACKET_SOURCE_INDEX 5)
        = some peer) :
    (onRemotePacket env st dataBytes).events = []
    ∧ (onRemotePacket env st dataBytes).dispatched = []
    ∧ (onRemotePacket env st dataBytes).receivedCalls = []
    ∧ (∃ wq' : WhoisQueueItem,
        alist.find? (onRemotePacket env st dataBytes).st.whois
            (loadBE dataBytes ZT_PROTO_PACKET_SOURCE_INDEX 5) = some wq'
        ∧ wq'.waitingPacketCount
            = ((alist.find? st.whois
                  (loadBE dataBytes ZT_PROTO_PACKET_SOURCE_INDEX 5)).getD
                WhoisQueueItem.init).waitingPacketCount + 1)
    ∧ (env.ticks - ((alist.find? st.whois
          (loadBE dataBytes ZT_PROTO_PACKET_SOURCE_INDEX 5)).getD
            WhoisQueueItem.init).lastRetry ≥ ZT_WHOIS_RETRY_DELAY
        → env.rootAvailable = true
        → (onRemotePacket env st dataBytes).whoisSent = true) := by
  have h16 : ¬ dataBytes.length < ZT_PROTO_MIN_FRAGMENT_LENGTH := by
    simp only [ZT_PROTO_MIN_PACKET_LENGTH] at hlen1
    simp only [ZT_PROTO_MIN_FRAGMENT_LENGTH]
    omega
  have hroute := runPipeline_fastpath env st dataBytes h16 hdst hfrag (by omega)
    (by simp [hfl])
  have hproc : processAssembled env st (loadBE dataBytes ZT_PROTO_PACKET_ID_INDEX 8)
        dataBytes
      = .ok (whoisBranch env st (loadBE dataBytes ZT_PROTO_PACKET_SOURCE_INDEX 5)
          dataBytes) := by
    simp only [processAssembled]
    rw [if_neg (fun hc => hnothello hc.2), hpeer]
    rcases hciph with h0 | h3
    · simp [h0]
    · simp [h3]
  have hall : onRemotePacket env st dataBytes
      = whoisBranch env st (loadBE dataBytes ZT_PROTO_PACKET_SOURCE_INDEX 5)
          dataBytes := by
    unfold onRemotePacket
    rw [hroute, hproc]
  rw [hall]
  unfold whoisBranch
  rw [if_pos ⟨hlen1, hlen2⟩]
  by_cases hdue : env.ticks - ((alist.find? st.whois
      (loadBE dataBytes ZT_PROTO_PACKET_SOURCE_INDEX 5)).getD
        WhoisQueueItem.init).lastRetry ≥ ZT_WHOIS_RETRY_DELAY
  · rw [if_pos hdue]
    by_cases hroot : env.rootAvailable = true
    · rw [sendPendingWhois_head_due env _
        (loadBE dataBytes ZT_PROTO_PACKET_SOURCE_INDEX 5)
        { (alist.find? st.whois
            (loadBE dataBytes ZT_PROTO_PACKET_SOURCE_INDEX 5)).getD
              WhoisQueueItem.init with
          waitingPacketCount := ((alist.find? st.whois
            (loadBE dataBytes ZT_PROTO_PACKET_SOURCE_INDEX 5)).getD
              WhoisQueueItem.init).waitingPacketCount + 1 }
        (st.whois.eraseP (fun e =>
          e.1 == loadBE dataBytes ZT_PROTO_PACKET_SOURCE_INDEX 5))
        rfl hdue hroot]
      refine ⟨rfl, rfl, rfl,
        ⟨{ waitingPacketCount := ((alist.find? st.whois
              (loadBE dataBytes ZT_PROTO_PACKET_SOURCE_INDEX 5)).getD
                WhoisQueueItem.init).waitingPacketCount + 1
           retries := ((alist.find? st.whois
              (loadBE dataBytes ZT_PROTO_PACKET_SOURCE_INDEX 5)).getD
                WhoisQueueItem.init).retries + 1
           lastRetry := env.ticks }, ?_, rfl⟩, fun _ _ => rfl⟩
      show alist.find? (_ :: _) _ = some _
      simp [alist.find?, List.find?_cons]
    · unfold sendPendingWhois
      have hnr : (!env.rootAvailable) = true := by
        simp only [Bool.not_eq_true] at hroot
        simp [hroot]
      rw [if_pos hnr]
      exact ⟨rfl, rfl, rfl,
        ⟨_, alist.find?_insert_self _ _ _, rfl⟩, fun _ hr => absurd hr hroot⟩
  · rw [if_neg hdue]
    exact ⟨rfl, rfl, rfl,
      ⟨_, alist.find?_insert_self _ _ _, rfl⟩, fun hd _ => absurd hd hdue⟩

/-- Witness for C9: the AES_GMAC_SIV-flagged FRAME packet (flags `0x18`)
from known peer 2 is queued for WHOIS (count 1), no event, no dispatch; the
retry delay has elapsed (ticks 5000, fresh entry) and a root exists, so a
WHOIS is sent. -/
theorem claim_C9_unimplemented_cipher_whois_witness :
    (onRemotePacket exEnv exState (exPacket 0x18 6)).events = []
    ∧ (onRemotePacket exEnv exState (exPacket 0x18 6)).dispatched = []
    ∧ (onRemotePacket exEnv exState (exPacket 0x18 6)).receivedCalls = []
    ∧ (∃ wq' : WhoisQueueItem,
        alist.find? (onRemotePacket exEnv exState (exPacket 0x18 6)).st.whois 2
          = some wq'
        ∧ wq'.waitingPacketCount
            = ((alist.find? exState.whois 2).getD
                WhoisQueueItem.init).waitingPacketCount + 1)
    ∧ (onRemotePacket exEnv exState (exPacket 0x18 6)).whoisSent = true := by
  have h := claim_C9_unimplemented_cipher_whois exEnv exState (exPacket 0x18 6)
    exPeer (by decide) (by decide) (by decide) (by decide) (by decide)
    (by decide) (by decide) (by decide)
  exact ⟨h.1, h.2.1, h.2.2.1, h.2.2.2.1, h.2.2.2.2 (by decide) (by decide)⟩

theorem alist.find?_eq_none_of_not_mem_keys {β : Type} (m : List (Nat × β))
    (a : Nat) (h : a ∉ m.map Prod.fst) : alist.find? m a = none := by
  induction m with
  | nil => rfl
  | cons e t ih =>
    have he : e.1 ≠ a := fun hh => h (by simp [hh])
    have he' : (e.1 == a) = false := by simp [he]
    have ht : a ∉ t.map Prod.fst := fun hh => h (by simp [hh])
    simp [alist.find?, List.find?_cons, he']
    have := ih ht
    simpa [alist.find?] using this

theorem alist.find?_eraseP_self {β : Type} (m : List (Nat × β)) (a : Nat)
    (hnd : (m.map Prod.fst).Nodup) :
    alist.find? (m.eraseP (fun e => e.1 == a)) a = none := by
  induction m with
  | nil => rfl
  | cons e t ih =>
    have hnd' : (t.map Prod.fst).Nodup := (List.nodup_cons.mp (by simpa using hnd)).2
    have hnotin : e.1 ∉ t.map Prod.fst :=
      (List.nodup_cons.mp (by simpa using hnd)).1
    simp only [List.eraseP_cons]
    by_cases he : e.1 = a
    · have hp : (e.1 == a) = true := by simp [he]
      simp only [hp, cond_true]
      exact alist.find?_eq_none_of_not_mem_keys t a (he ▸ hnotin)
    · have hp : (e.1 == a) = false := by simp [he]
      simp only [hp, cond_false]
      have he' : (e.1 == a) = false := hp
      simp [alist.find?, List.find?_cons, he']
      have := ih hnd'
      simpa [alist.find?] using this

/-- C7: `VL1::m_OK` parses `inReVerb` and `inRePacketId` and (first
conjunct) returns a `REPLY_NOT_EXPECTED` drop whenever
`expect->expecting(inRePacketId, now)` is false; and (second conjunct)
since `expecting` removes the entry it returns, a second OK citing the
same `inRePacketId` is also dropped as `REPLY_NOT_EXPECTED`. -/
theorem claim_C7_ok_reply_not_expected (tbl : List (Nat × Int)) (now : Int)
    (packetId : Nat) (pkt : Bytes) (ps : Nat)
    (hnd : (tbl.map Prod.fst).Nodup)
    (hsz : ZT_PROTO_PACKET_PAYLOAD_START + 22 ≤ ps) :
    ((expectExpecting tbl
          (loadBE pkt (ZT_PROTO_PACKET_PAYLOAD_START + 14) 8) now).1 = false
      → m_OK tbl now packetId pkt ps
          = { ok := false
              inReVerb := byteAt pkt (ZT_PROTO_PACKET_PAYLOAD_START + 13)
              events := [.dropped 0x4c1f1ff8 packetId .REPLY_NOT_EXPECTED]
              expect := (expectExpecting tbl
                (loadBE pkt (ZT_PROTO_PACKET_PAYLOAD_START + 14) 8) now).2 })
    ∧ ((m_OK tbl now packetId pkt ps).ok = true
      → ∀ (now2 : Int) (packetId2 ps2 : Nat) (pkt2 : Bytes),
          ZT_PROTO_PACKET_PAYLOAD_START + 22 ≤ ps2
          → loadBE pkt2 (ZT_PROTO_PACKET_PAYLOAD_START + 14) 8
              = loadBE pkt (ZT_PROTO_PACKET_PAYLOAD_START + 14) 8
          → (m_OK (m_OK tbl now packetId pkt ps).expect now2 packetId2 pkt2 ps2).ok
              = false
            ∧ (m_OK (m_OK tbl now packetId pkt ps).expect now2 packetId2 pkt2 ps2).events
                = [.dropped 0x4c1f1ff8 packetId2 .REPLY_NOT_EXPECTED]) := by
  constructor
  · intro hexp
    unfold m_OK
    rw [if_neg (by omega)]
    simp [hexp]
  · intro hok now2 packetId2 ps2 pkt2 hsz2 hid
    by_cases hr : (expectExpecting tbl
        (loadBE pkt (ZT_PROTO_PACKET_PAYLOAD_START + 14) 8) now).1 = true
    · have hfind : alist.find? tbl
          (loadBE pkt (ZT_PROTO_PACKET_PAYLOAD_START + 14) 8) ≠ none := by
        intro hh
        unfold expectExpecting at hr
        rw [hh] at hr
        simp at hr
      have hexpect1 : (m_OK tbl now packetId pkt ps).expect
          = tbl.eraseP (fun e =>
              e.1 == loadBE pkt (ZT_PROTO_PACKET_PAYLOAD_START + 14) 8) := by
        unfold m_OK
        rw [if_neg (by omega)]
        simp only [hr, Bool.not_true, Bool.false_eq_true, if_false]
        unfold expectExpecting
        cases hfd : alist.find? tbl
            (loadBE pkt (ZT_PROTO_PACKET_PAYLOAD_START + 14) 8) with
        | none => exact absurd hfd hfind
        | some t => rfl
      have hgone : alist.find? (m_OK tbl now packetId pkt ps).expect
          (loadBE pkt2 (ZT_PROTO_PACKET_PAYLOAD_START + 14) 8) = none := by
        rw [hexpect1, hid]
        exact alist.find?_eraseP_self tbl _ hnd
      have hexp2 : (expectExpecting (m_OK tbl now packetId pkt ps).expect
          (loadBE pkt2 (ZT_PROTO_PACKET_PAYLOAD_START + 14) 8) now2)
          = (false, (m_OK tbl now packetId pkt ps).expect) := by
        unfold expectExpecting
        rw [hgone]
      generalize hE : (m_OK tbl now packetId pkt ps).expect = E at hexp2 ⊢
      constructor
      · unfold m_OK
        rw [if_neg (by omega), hexp2]
        simp
      · unfold m_OK
        rw [if_neg (by omega), hexp2]
        simp
    · exfalso
      have : (m_OK tbl now packetId pkt ps).ok = false := by
        unfold m_OK
        rw [if_neg (by omega)]
        simp only [Bool.not_eq_true] at hr
        simp [hr]
      rw [hok] at this
      simp at this

/-- Witness for C7: with entry (55, sent at 4000) in the Expect table, the
first OK citing 55 at ticks 5000 is accepted; the second one citing 55 is
dropped as `REPLY_NOT_EXPECTED` because `expecting` removed the entry. -/
theorem claim_C7_ok_reply_not_expected_witness :
    (m_OK [(55, 4000)] 5000 9 exOkPacket 50).ok = true
    ∧ (m_OK (m_OK [(55, 4000)] 5000 9 exOkPacket 50).expect
        5001 10 exOkPacket 50).ok = false
    ∧ (m_OK (m_OK [(55, 4000)] 5000 9 exOkPacket 50).expect
        5001 10 exOkPacket 50).events
      = [.dropped 0x4c1f1ff8 10 .REPLY_NOT_EXPECTED] := by
  have h := claim_C7_ok_reply_not_expected [(55, 4000)] 5000 9 exOkPacket 50
    (by decide) (by decide)
  have hb := h.2 (by decide) 5001 10 50 exOkPacket (by decide) (by decide)
  exact ⟨by decide, hb.1, hb.2⟩

theorem dispatchVerb_error_received (env : Env) (st : VL1State)
    (packetId source verb : Nat) (pkt : Bytes) (pktSize : Nat) (e : Effects)
    (h : dispatchVerb env st packetId source verb pkt pktSize = .error e) :
    e.receivedCalls = [] := by
  simp only [dispatchVerb] at h
  repeat' split at h
  all_goals first
    | (injection h with h; subst h; rfl)
    | injection h

theorem afterAuth_error_received (env : Env) (st : VL1State)
    (packetId source : Nat) (peer : Peer) (pkt : Bytes) (pktSize : Nat)
    (e : Effects)
    (h : afterAuth env st packetId source peer pkt pktSize = .error e) :
    e.receivedCalls = [] := by
  simp only [afterAuth] at h
  repeat' split at h
  all_goals first
    | exact dispatchVerb_error_received env _ packetId source _ _ _ e h
    | injection h

theorem processAssembled_error_received (env : Env) (st : VL1State)
    (packetId : Nat) (asm : Bytes) (e : Effects)
    (h : processAssembled env st packetId asm = .error e) :
    e.receivedCalls = [] := by
  simp only [processAssembled] at h
  repeat' split at h
  all_goals first
    | exact afterAuth_error_received env st packetId _ _ _ _ e h
    | injection h

theorem runPipeline_error_received (env : Env) (st : VL1State)
    (dataBytes : Bytes) (e : Effects)
    (h : runPipeline env st dataBytes = .error e) :
    e.receivedCalls = [] := by
  simp only [runPipeline] at h
  repeat' split at h
  all_goals first
    | exact processAssembled_error_received env st _ _ e h
    | injection h

/-- C8: no exception escapes `onRemotePacket`.  `onRemotePacket` is a
total function on every input: when the pipeline body finishes normally
its effects are returned unchanged, and when any handler throws, the
exception is swallowed, the `unexpectedError(0xea1b6dea)` trace event is
appended to the effects accumulated so far, and the packet is dropped —
in particular `peer->received` has not been and is not called. -/
theorem claim_C8_exceptions_caught (env : Env) (st : VL1State)
    (dataBytes : Bytes) :
    (∀ eff : Effects, runPipeline env st dataBytes = .ok eff
        → onRemotePacket env st dataBytes = eff)
    ∧ (∀ e : Effects, runPipeline env st dataBytes = .error e
        → onRemotePacket env st dataBytes
            = { e with events := e.events ++ [.unexpectedError 0xea1b6dea] }
          ∧ e.receivedCalls = []
          ∧ (onRemotePacket env st dataBytes).receivedCalls = []) := by
  constructor
  · intro eff h
    unfold onRemotePacket
    rw [h]
  · intro e h
    have hrc := runPipeline_error_received env st dataBytes e h
    refine ⟨?_, hrc, ?_⟩
    · unfold onRemotePacket
      rw [h]
    · unfold onRemotePacket
      rw [h]
      simpa using hrc

/-- Witness for C8: with a throwing FRAME handler, the pipeline body ends
in an exception after dispatch, and `onRemotePacket` still returns —
with the `unexpectedError` trace appended and no `peer->received` call. -/
theorem claim_C8_exceptions_caught_witness :
    runPipeline exEnvThrow exState (exPacket 0x10 6)
      = .error
          { st := { peers := [(2, { exPeer with dedupRing := [1] })]
                    whois := [], expect := [] }
            events := [], dispatched := [6], receivedCalls := []
            relayed := false, okHelloSent := false, remoteVersionSet := false
            whoisSent := false }
    ∧ onRemotePacket exEnvThrow exState (exPacket 0x10 6)
        = { st := { peers := [(2, { exPeer with dedupRing := [1] })]
                    whois := [], expect := [] }
            events := [.unexpectedError 0xea1b6dea], dispatched := [6]
            receivedCalls := [], relayed := false, okHelloSent := false
            remoteVersionSet := false, whoisSent := false }
    ∧ (onRemotePacket exEnvThrow exState (exPacket 0x10 6)).receivedCalls = [] := by
  have hrun : runPipeline exEnvThrow exState (exPacket 0x10 6)
      = .error
          { st := { peers := [(2, { exPeer with dedupRing := [1] })]
                    whois := [], expect := [] }
            events := [], dispatched := [6], receivedCalls := []
            relayed := false, okHelloSent := false, remoteVersionSet := false
            whoisSent := false } := by rfl
  have h := (claim_C8_exceptions_caught exEnvThrow exState (exPacket 0x10 6)).2
    _ hrun
  exact ⟨hrun, h.1, h.2.2⟩

theorem dedup_identity (p : Peer) (i : Nat) :
    (deduplicateIncomingPacket p i).2.identity = p.identity := by
  unfold deduplicateIncomingPacket
  split <;> rfl

theorem helloAuthAndReply_peers (env : Env) (m : List (Nat × Peer)) (peer : Peer)
    (pkt : Bytes) (packetId mac pv ii1 : Nat) :
    (helloAuthAndReply env m peer pkt packetId mac pv ii1).peers = m := by
  simp only [helloAuthAndReply, helloPostAuth, helloReply, helloDrop]
  repeat' split
  all_goals rfl

theorem helloGetPeer_preserves (env : Env) (m : List (Nat × Peer)) (id : Identity)
    (packetId : Nat) (a : Nat) (p : Peer) (hp : alist.find? m a = some p) :
    (∀ hr, helloGetPeer env m id packetId = .inl hr
        → ∃ p', alist.find? hr.peers a = some p' ∧ p'.identity = p.identity)
    ∧ (∀ q m2, helloGetPeer env m id packetId = .inr (q, m2)
        → ∃ p', alist.find? m2 a = some p' ∧ p'.identity = p.identity) := by
  unfold helloGetPeer topologyPeerCreate topologyAdd
  cases hf : alist.find? m id.addr with
  | some q0 =>
    dsimp only
    by_cases hmq : q0.identity ≠ id
    · rw [if_pos hmq]
      constructor
      · intro hr h
        injection h with h
        subst h
        exact ⟨p, hp, rfl⟩
      · intro q m2 h
        injection h
    · rw [if_neg hmq]
      by_cases ha : a = id.addr
      · subst ha
        have hpq : p = q0 := by
          rw [hp] at hf
          injection hf
        subst hpq
        by_cases hdup : (deduplicateIncomingPacket p packetId).1 = true
        · rw [if_pos hdup]
          constructor
          · intro hr h
            injection h with h
            subst h
            exact ⟨(deduplicateIncomingPacket p packetId).2,
              alist.find?_insert_self _ _ _, dedup_identity p packetId⟩
          · intro q m2 h
            injection h
        · rw [if_neg hdup]
          constructor
          · intro hr h
            injection h
          · intro q m2 h
            injection h with h
            injection h with hq hm
            subst hm
            exact ⟨(deduplicateIncomingPacket p packetId).2,
              alist.find?_insert_self _ _ _, dedup_identity p packetId⟩
      · by_cases hdup : (deduplicateIncomingPacket q0 packetId).1 = true
        · rw [if_pos hdup]
          constructor
          · intro hr h
            injection h with h
            subst h
            exact ⟨p, by
              rw [alist.find?_insert_ne _ _ _ _ ha]
              exact hp, rfl⟩
          · intro q m2 h
            injection h
        · rw [if_neg hdup]
          constructor
          · intro hr h
            injection h
          · intro q m2 h
            injection h with h
            have h2 : m2 = alist.insert m id.addr
                (deduplicateIncomingPacket q0 packetId).2 := by
              exact (congrArg Prod.snd h).symm
            subst h2
            exact ⟨p, by
              rw [alist.find?_insert_ne _ _ _ _ ha]
              exact hp, rfl⟩
  | none =>
    have ha : a ≠ id.addr := by
      intro hh
      rw [hh, hf] at hp
      exact Option.noConfusion hp
    cases hc : env.cachedPeerLoad id.addr with
    | some cp =>
      dsimp only
      by_cases hmq : cp.identity ≠ id
      · rw [if_pos hmq]
        constructor
        · intro hr h
          injection h with h
          subst h
          exact ⟨p, by
            simp only [helloDrop]
            rw [alist.find?_insert_ne _ _ _ _ ha]
            exact hp, rfl⟩
        · intro q m2 h
          injection h
      · rw [if_neg hmq]
        by_cases hdup : (deduplicateIncomingPacket cp packetId).1 = true
        · rw [if_pos hdup]
          constructor
          · intro hr h
            injection h with h
            subst h
            exact ⟨p, by
              rw [alist.find?_insert_ne _ _ _ _ ha,
                alist.find?_insert_ne _ _ _ _ ha]
              exact hp, rfl⟩
          · intro q m2 h
            injection h
        · rw [if_neg hdup]
          constructor
          · intro hr h
            injection h
          · intro q m2 h
            injection h with h
            have h2 : m2 = alist.insert
                (alist.insert m id.addr cp) id.addr
                (deduplicateIncomingPacket cp packetId).2 :=
              (congrArg Prod.snd h).symm
            subst h2
            exact ⟨p, by
              rw [alist.find?_insert_ne _ _ _ _ ha,
                alist.find?_insert_ne _ _ _ _ ha]
              exact hp, rfl⟩
    | none =>
      dsimp only
      by_cases hv : id.valid = false
      · rw [if_pos (by simp [hv])]
        constructor
        · intro hr h
          injection h with h
          subst h
          exact ⟨p, hp, rfl⟩
        · intro q m2 h
          injection h
      · rw [if_neg (by simp [hv])]
        by_cases hi : env.peerInitOk id = false
        · rw [if_pos (by simp [hi])]
          constructor
          · intro hr h
            injection h with h
            subst h
            exact ⟨p, hp, rfl⟩
          · intro q m2 h
            injection h
        · rw [if_neg (by simp [hi])]
          have hfa : (freshPeer env id).address = id.addr := rfl
          rw [hfa, hf, hc]
          dsimp only
          constructor
          · intro hr h
            injection h
          · intro q m2 h
            injection h with h
            have h2 : m2 = alist.insert m id.addr (freshPeer env id) :=
              (congrArg Prod.snd h).symm
            subst h2
            exact ⟨p, by
              rw [alist.find?_insert_ne _ _ _ _ ha]
              exact hp, rfl⟩

theorem m_HELLO_preserves_identity (env : Env) (peers0 : List (Nat × Peer))
    (pkt : Bytes) (a : Nat) (p : Peer)
    (hp : alist.find? peers0 a = some p) :
    ∃ p', alist.find? (m_HELLO env peers0 pkt).peers a = some p'
      ∧ p'.identity = p.identity := by
  simp only [m_HELLO]
  by_cases h1 : byteAt pkt ZT_PROTO_PACKET_PAYLOAD_START < ZT_PROTO_VERSION_MIN
  · rw [if_pos h1]
    exact ⟨p, hp, rfl⟩
  · rw [if_neg h1]
    cases h2 : env.crypto.readIdentity pkt (ZT_PROTO_PACKET_PAYLOAD_START + 13) with
    | none => exact ⟨p, hp, rfl⟩
    | some pr =>
      obtain ⟨id, ii1⟩ := pr
      dsimp only
      by_cases h3 : id.addr ≠ loadBE pkt ZT_PROTO_PACKET_SOURCE_INDEX 5
      · rw [if_pos h3]
        exact ⟨p, hp, rfl⟩
      · rw [if_neg h3]
        cases h4 : helloGetPeer env peers0 id
            (loadBE pkt ZT_PROTO_PACKET_ID_INDEX 8) with
        | inl hr =>
          exact (helloGetPeer_preserves env peers0 id _ a p hp).1 hr h4
        | inr pm =>
          obtain ⟨q, m2⟩ := pm
          rw [helloAuthAndReply_peers]
          exact (helloGetPeer_preserves env peers0 id _ a p hp).2 q m2 h4

theorem m_HELLO_identity_mismatch (env : Env) (peers0 : List (Nat × Peer))
    (pkt : Bytes) (id : Identity) (ii1 : Nat) (p : Peer)
    (hproto : ¬ byteAt pkt ZT_PROTO_PACKET_PAYLOAD_START < ZT_PROTO_VERSION_MIN)
    (hident : env.crypto.readIdentity pkt (ZT_PROTO_PACKET_PAYLOAD_START + 13)
        = some (id, ii1))
    (haddr : id.addr = loadBE pkt ZT_PROTO_PACKET_SOURCE_INDEX 5)
    (hpeer : alist.find? peers0 id.addr = some p)
    (hmism : p.identity ≠ id) :
    m_HELLO env peers0 pkt
      = helloDrop peers0 0x707a9891 (loadBE pkt ZT_PROTO_PACKET_ID_INDEX 8)
          .MAC_FAILED := by
  simp only [m_HELLO, hident]
  rw [if_neg hproto, if_neg (by simp [haddr])]
  simp only [helloGetPeer, topologyPeerCreate, hpeer]
  rw [if_pos hmism]

/-- C3: (first conjunct) a HELLO whose parsed identity differs from the
identity stored for that address returns a null peer handle after a
`MAC_FAILED` trace, leaving the peer map untouched; (second conjunct) no
HELLO, on any input whatsoever, ever replaces or modifies the identity
stored for any address that already has a peer. -/
theorem claim_C3_hello_identity_locked :
    (∀ (env : Env) (peers0 : List (Nat × Peer)) (pkt : Bytes) (id : Identity)
        (ii1 : Nat) (p : Peer),
      ¬ byteAt pkt ZT_PROTO_PACKET_PAYLOAD_START < ZT_PROTO_VERSION_MIN
      → env.crypto.readIdentity pkt (ZT_PROTO_PACKET_PAYLOAD_START + 13)
          = some (id, ii1)
      → id.addr = loadBE pkt ZT_PROTO_PACKET_SOURCE_INDEX 5
      → alist.find? peers0 id.addr = some p
      → p.identity ≠ id
      → (m_HELLO env peers0 pkt).ret = none
        ∧ (m_HELLO env peers0 pkt).events
            = [.dropped 0x707a9891 (loadBE pkt ZT_PROTO_PACKET_ID_INDEX 8)
                .MAC_FAILED]
        ∧ (m_HELLO env peers0 pkt).peers = peers0)
    ∧ (∀ (env : Env) (peers0 : List (Nat × Peer)) (pkt : Bytes) (a : Nat)
        (p : Peer),
      alist.find? peers0 a = some p
      → ∃ p', alist.find? (m_HELLO env peers0 pkt).peers a = some p'
          ∧ p'.identity = p.identity) := by
  constructor
  · intro env peers0 pkt id ii1 p hproto hident haddr hpeer hmism
    rw [m_HELLO_identity_mismatch env peers0 pkt id ii1 p hproto hident haddr
      hpeer hmism]
    exact ⟨rfl, rfl, rfl⟩
  · intro env peers0 pkt a p hp
    exact m_HELLO_preserves_identity env peers0 pkt a p hp

/-- Witness for C3: the HELLO claiming address 2 with foreign key material
is rejected with `MAC_FAILED`, returns no peer handle, and address 2 still
maps to `exPeer` with its original identity. -/
theorem claim_C3_hello_identity_locked_witness :
    (m_HELLO exEnvBadIdent exState.peers exHelloPacket).ret = none
    ∧ (m_HELLO exEnvBadIdent exState.peers exHelloPacket).events
        = [.dropped 0x707a9891 1 .MAC_FAILED]
    ∧ (m_HELLO exEnvBadIdent exState.peers exHelloPacket).peers = exState.peers := by
  have h := claim_C3_hello_identity_locked.1 exEnvBadIdent exState.peers
    exHelloPacket ⟨2, 8, true⟩ 41 exPeer (by decide) (by decide) (by decide)
    (by decide) (by decide)
  exact h

theorem m_HELLO_v11_known_peer_auth (env : Env) (peers0 : List (Nat × Peer))
    (pkt : Bytes) (id : Identity) (ii1 : Nat) (p : Peer)
    (hproto11 : 11 ≤ byteAt pkt ZT_PROTO_PACKET_PAYLOAD_START)
    (hident : env.crypto.readIdentity pkt (ZT_PROTO_PACKET_PAYLOAD_START + 13)
        = some (id, ii1))
    (haddr : id.addr = loadBE pkt ZT_PROTO_PACKET_SOURCE_INDEX 5)
    (hpeer : alist.find? peers0 id.addr = some p)
    (hmatch : p.identity = id)
    (hnotdup : p.dedupRing.contains (loadBE pkt ZT_PROTO_PACKET_ID_INDEX 8)
        = false)
    (hlen48 : ¬ pkt.length < ZT_HMACSHA384_LEN)
    (hhmac : env.crypto.hmacSha384 p.helloHmacKey
          ((maskHopsZeroMac pkt).take (pkt.length - ZT_HMACSHA384_LEN))
        = ((maskHopsZeroMac pkt).drop
            (pkt.length - ZT_HMACSHA384_LEN)).take ZT_HMACSHA384_LEN) :
    m_HELLO env peers0 pkt
      = helloPostAuth env
          (alist.insert peers0 id.addr
            { p with dedupRing :=
                ((loadBE pkt ZT_PROTO_PACKET_ID_INDEX 8)
                  :: p.dedupRing).take ZT_PEER_DEDUP_WINDOW })
          { p with dedupRing :=
              ((loadBE pkt ZT_PROTO_PACKET_ID_INDEX 8)
                :: p.dedupRing).take ZT_PEER_DEDUP_WINDOW }
          (maskHopsZeroMac pkt) (pkt.length - ZT_HMACSHA384_LEN)
          (loadBE pkt ZT_PROTO_PACKET_ID_INDEX 8)
          (byteAt pkt ZT_PROTO_PACKET_PAYLOAD_START) ii1 := by
  have hmin : ¬ byteAt pkt ZT_PROTO_PACKET_PAYLOAD_START < ZT_PROTO_VERSION_MIN := by
    simp only [ZT_PROTO_VERSION_MIN]
    omega
  simp only [m_HELLO, hident]
  rw [if_neg hmin, if_neg (by simp [haddr])]
  simp only [helloGetPeer, topologyPeerCreate, hpeer]
  rw [if_neg (by simp [hmatch]),
    dedup_fresh p (loadBE pkt ZT_PROTO_PACKET_ID_INDEX 8) hnotdup]
  dsimp only
  rw [if_neg (by decide : ¬ ((false : Bool) = true))]
  dsimp only
  simp only [helloAuthAndReply]
  rw [if_pos hproto11, if_neg hlen48]
  dsimp only
  rw [if_neg (fun hc => hc hhmac)]

theorem m_HELLO_dict_overflow (env : Env) (peers0 : List (Nat × Peer))
    (pkt : Bytes) (id : Identity) (ii1 ii2 : Nat) (p : Peer)
    (hproto11 : 11 ≤ byteAt pkt ZT_PROTO_PACKET_PAYLOAD_START)
    (hident : env.crypto.readIdentity pkt (ZT_PROTO_PACKET_PAYLOAD_START + 13)
        = some (id, ii1))
    (haddr : id.addr = loadBE pkt ZT_PROTO_PACKET_SOURCE_INDEX 5)
    (hpeer : alist.find? peers0 id.addr = some p)
    (hmatch : p.identity = id)
    (hnotdup : p.dedupRing.contains (loadBE pkt ZT_PROTO_PACKET_ID_INDEX 8)
        = false)
    (hlen48 : ¬ pkt.length < ZT_HMACSHA384_LEN)
    (hhmac : env.crypto.hmacSha384 p.helloHmacKey
          ((maskHopsZeroMac pkt).take (pkt.length - ZT_HMACSHA384_LEN))
        = ((maskHopsZeroMac pkt).drop
            (pkt.length - ZT_HMACSHA384_LEN)).take ZT_HMACSHA384_LEN)
    (hinet : env.crypto.readInetAddress (maskHopsZeroMac pkt) ii1 = some ii2)
    (hfit : ii2 + 4 + 12 < pkt.length - ZT_HMACSHA384_LEN)
    (hover : ii2 + 4 + 12 + 2 + 2
        + loadBE ((maskHopsZeroMac pkt).take (ii2 + 4 + 12)
            ++ padTruncate (env.crypto.aesCtrDecrypt p.helloDictKey
                  (((maskHopsZeroMac pkt).drop (ii2 + 4)).take 12)
                  (((maskHopsZeroMac pkt).drop (ii2 + 4 + 12)).take
                    (pkt.length - ZT_HMACSHA384_LEN - (ii2 + 4 + 12))))
                (pkt.length - ZT_HMACSHA384_LEN - (ii2 + 4 + 12))
            ++ (maskHopsZeroMac pkt).drop (pkt.length - ZT_HMACSHA384_LEN))
          (ii2 + 4 + 12 + 2) 2
        > pkt.length - ZT_HMACSHA384_LEN) :
    m_HELLO env peers0 pkt
      = { ret := some { p with dedupRing :=
            ((loadBE pkt ZT_PROTO_PACKET_ID_INDEX 8)
              :: p.dedupRing).take ZT_PEER_DEDUP_WINDOW }
          peers := alist.insert peers0 id.addr
            { p with dedupRing :=
                ((loadBE pkt ZT_PROTO_PACKET_ID_INDEX 8)
                  :: p.dedupRing).take ZT_PEER_DEDUP_WINDOW }
          events := [.dropped 0x707a9815 (loadBE pkt ZT_PROTO_PACKET_ID_INDEX 8)
            .INVALID_OBJECT]
          okSent := false
          remoteVersionSet := false } := by
  rw [m_HELLO_v11_known_peer_auth env peers0 pkt id ii1 p hproto11 hident haddr
    hpeer hmatch hnotdup hlen48 hhmac]
  simp only [helloPostAuth, hinet]
  rw [if_pos hproto11, if_pos hfit]
  rw [if_pos hover]

theorem m_HELLO_dict_decode_fail (env : Env) (peers0 : List (Nat × Peer))
    (pkt : Bytes) (id : Identity) (ii1 ii2 : Nat) (p : Peer)
    (hproto11 : 11 ≤ byteAt pkt ZT_PROTO_PACKET_PAYLOAD_START)
    (hident : env.crypto.readIdentity pkt (ZT_PROTO_PACKET_PAYLOAD_START + 13)
        = some (id, ii1))
    (haddr : id.addr = loadBE pkt ZT_PROTO_PACKET_SOURCE_INDEX 5)
    (hpeer : alist.find? peers0 id.addr = some p)
    (hmatch : p.identity = id)
    (hnotdup : p.dedupRing.contains (loadBE pkt ZT_PROTO_PACKET_ID_INDEX 8)
        = false)
    (hlen48 : ¬ pkt.length < ZT_HMACSHA384_LEN)
    (hhmac : env.crypto.hmacSha384 p.helloHmacKey
          ((maskHopsZeroMac pkt).take (pkt.length - ZT_HMACSHA384_LEN))
        = ((maskHopsZeroMac pkt).drop
            (pkt.length - ZT_HMACSHA384_LEN)).take ZT_HMACSHA384_LEN)
    (hinet : env.crypto.readInetAddress (maskHopsZeroMac pkt) ii1 = some ii2)
    (hfit : ii2 + 4 + 12 < pkt.length - ZT_HMACSHA384_LEN)
    (hnover : ¬ (ii2 + 4 + 12 + 2 + 2
        + loadBE ((maskHopsZeroMac pkt).take (ii2 + 4 + 12)
            ++ padTruncate (env.crypto.aesCtrDecrypt p.helloDictKey
                  (((maskHopsZeroMac pkt).drop (ii2 + 4)).take 12)
                  (((maskHopsZeroMac pkt).drop (ii2 + 4 + 12)).take
                    (pkt.length - ZT_HMACSHA384_LEN - (ii2 + 4 + 12))))
                (pkt.length - ZT_HMACSHA384_LEN - (ii2 + 4 + 12))
            ++ (maskHopsZeroMac pkt).drop (pkt.length - ZT_HMACSHA384_LEN))
          (ii2 + 4 + 12 + 2) 2
        > pkt.length - ZT_HMACSHA384_LEN))
    (hdecode : env.crypto.dictDecode
        ((((maskHopsZeroMac pkt).take (ii2 + 4 + 12)
            ++ padTruncate (env.crypto.aesCtrDecrypt p.helloDictKey
                  (((maskHopsZeroMac pkt).drop (ii2 + 4)).take 12)
                  (((maskHopsZeroMac pkt).drop (ii2 + 4 + 12)).take
                    (pkt.length - ZT_HMACSHA384_LEN - (ii2 + 4 + 12))))
                (pkt.length - ZT_HMACSHA384_LEN - (ii2 + 4 + 12))
            ++ (maskHopsZeroMac pkt).drop
                (pkt.length - ZT_HMACSHA384_LEN)).drop (ii2 + 4 + 12 + 2 + 2)).take
          (loadBE ((maskHopsZeroMac pkt).take (ii2 + 4 + 12)
            ++ padTruncate (env.crypto.aesCtrDecrypt p.helloDictKey
                  (((maskHopsZeroMac pkt).drop (ii2 + 4)).take 12)
                  (((maskHopsZeroMac pkt).drop (ii2 + 4 + 12)).take
                    (pkt.length - ZT_HMACSHA384_LEN - (ii2 + 4 + 12))))
                (pkt.length - ZT_HMACSHA384_LEN - (ii2 + 4 + 12))
            ++ (maskHopsZeroMac pkt).drop (pkt.length - ZT_HMACSHA384_LEN))
          (ii2 + 4 + 12 + 2) 2)) = none) :
    m_HELLO env peers0 pkt
      = { ret := some { p with dedupRing :=
            ((loadBE pkt ZT_PROTO_PACKET_ID_INDEX 8)
              :: p.dedupRing).take ZT_PEER_DEDUP_WINDOW }
          peers := alist.insert peers0 id.addr
            { p with dedupRing :=
                ((loadBE pkt ZT_PROTO_PACKET_ID_INDEX 8)
                  :: p.dedupRing).take ZT_PEER_DEDUP_WINDOW }
          events := [.dropped 0x707a9816 (loadBE pkt ZT_PROTO_PACKET_ID_INDEX 8)
            .INVALID_OBJECT]
          okSent := false
          remoteVersionSet := false } := by
  rw [m_HELLO_v11_known_peer_auth env peers0 pkt id ii1 p hproto11 hident haddr
    hpeer hmatch hnotdup hlen48 hhmac]
  simp only [helloPostAuth, hinet]
  rw [if_pos hproto11, if_pos hfit]
  rw [if_neg hnover]
  rw [hdecode]

/-- C10: in the HELLO handler with `protoVersion ≥ 11`, once the
HMAC-SHA-384 check has passed, a malformed encrypted metadata dictionary —
declared dictionary length overflowing the packet payload (trace code
`0x707a9815`) or dictionary decode failure (`0x707a9816`) — is reported via
trace as `INVALID_OBJECT`, yet `m_HELLO` still returns the non-null peer
handle, so the caller updates peer liveness via `peer->received`
(`receivedCalls` gains the packet) even though no OK(HELLO) reply is sent
and `setRemoteVersion` is never called for that HELLO. -/
theorem claim_C10_hello_bad_dictionary (env : Env) (st : VL1State)
    (dataBytes : Bytes) (id : Identity) (ii1 ii2 : Nat) (p : Peer)
    (hlen1 : ZT_PROTO_MIN_PACKET_LENGTH ≤ dataBytes.length)
    (hlen2 : dataBytes.length ≤ ZT_BUF_MEM_SIZE)
    (hdst : loadBE dataBytes ZT_PROTO_PACKET_DESTINATION_INDEX 5 = env.selfAddr)
    (hfrag : byteAt dataBytes ZT_PROTO_PACKET_FRAGMENT_INDICATOR_INDEX
        ≠ ZT_PROTO_PACKET_FRAGMENT_INDICATOR)
    (hfl : byteAt dataBytes ZT_PROTO_PACKET_FLAGS_INDEX
        &&& ZT_PROTO_FLAG_FRAGMENTED = 0)
    (hcv : (packetCipher (byteAt dataBytes ZT_PROTO_PACKET_FLAGS_INDEX) = 1
          ∨ packetCipher (byteAt dataBytes ZT_PROTO_PACKET_FLAGS_INDEX) = 0)
        ∧ byteAt dataBytes ZT_PROTO_PACKET_VERB_INDEX % 32 = VERB_HELLO)
    (hproto11 : 11 ≤ byteAt dataBytes ZT_PROTO_PACKET_PAYLOAD_START)
    (hident : env.crypto.readIdentity dataBytes
        (ZT_PROTO_PACKET_PAYLOAD_START + 13) = some (id, ii1))
    (haddr : id.addr = loadBE dataBytes ZT_PROTO_PACKET_SOURCE_INDEX 5)
    (hpeer : alist.find? st.peers id.addr = some p)
    (hmatch : p.identity = id)
    (hnotdup : p.dedupRing.contains
        (loadBE dataBytes ZT_PROTO_PACKET_ID_INDEX 8) = false)
    (hlen48 : ¬ dataBytes.length < ZT_HMACSHA384_LEN)
    (hhmac : env.crypto.hmacSha384 p.helloHmacKey
          ((maskHopsZeroMac dataBytes).take
            (dataBytes.length - ZT_HMACSHA384_LEN))
        = ((maskHopsZeroMac dataBytes).drop
            (dataBytes.length - ZT_HMACSHA384_LEN)).take ZT_HMACSHA384_LEN)
    (hinet : env.crypto.readInetAddress (maskHopsZeroMac dataBytes) ii1
        = some ii2)
    (hfit : ii2 + 4 + 12 < dataBytes.length - ZT_HMACSHA384_LEN) :
    ((ii2 + 4 + 12 + 2 + 2
        + loadBE ((maskHopsZeroMac dataBytes).take (ii2 + 4 + 12)
            ++ padTruncate (env.crypto.aesCtrDecrypt p.helloDictKey
                  (((maskHopsZeroMac dataBytes).drop (ii2 + 4)).take 12)
                  (((maskHopsZeroMac dataBytes).drop (ii2 + 4 + 12)).take
                    (dataBytes.length - ZT_HMACSHA384_LEN - (ii2 + 4 + 12))))
                (dataBytes.length - ZT_HMACSHA384_LEN - (ii2 + 4 + 12))
            ++ (maskHopsZeroMac dataBytes).drop
                (dataBytes.length - ZT_HMACSHA384_LEN))
          (ii2 + 4 + 12 + 2) 2
        > dataBytes.length - ZT_HMACSHA384_LEN) →
      onRemotePacket env st dataBytes
        = { st := { peers := alist.insert st.peers id.addr
                      { p with dedupRing :=
                          ((loadBE dataBytes ZT_PROTO_PACKET_ID_INDEX 8)
                            :: p.dedupRing).take ZT_PEER_DEDUP_WINDOW }
                    whois := st.whois
                    expect := st.expect }
            events := [.dropped 0x707a9815
              (loadBE dataBytes ZT_PROTO_PACKET_ID_INDEX 8) .INVALID_OBJECT]
            dispatched := [VERB_HELLO]
            receivedCalls := [(loadBE dataBytes ZT_PROTO_PACKET_SOURCE_INDEX 5,
              loadBE dataBytes ZT_PROTO_PACKET_ID_INDEX 8)]
            relayed := false
            okHelloSent := false
            remoteVersionSet := false
            whoisSent := false })
    ∧ ((¬ (ii2 + 4 + 12 + 2 + 2
        + loadBE ((maskHopsZeroMac dataBytes).take (ii2 + 4 + 12)
            ++ padTruncate (env.crypto.aesCtrDecrypt p.helloDictKey
                  (((maskHopsZeroMac dataBytes).drop (ii2 + 4)).take 12)
                  (((maskHopsZeroMac dataBytes).drop (ii2 + 4 + 12)).take
                    (dataBytes.length - ZT_HMACSHA384_LEN - (ii2 + 4 + 12))))
                (dataBytes.length - ZT_HMACSHA384_LEN - (ii2 + 4 + 12))
            ++ (maskHopsZeroMac dataBytes).drop
                (dataBytes.length - ZT_HMACSHA384_LEN))
          (ii2 + 4 + 12 + 2) 2
        > dataBytes.length - ZT_HMACSHA384_LEN)) →
      env.crypto.dictDecode
        ((((maskHopsZeroMac dataBytes).take (ii2 + 4 + 12)
            ++ padTruncate (env.crypto.aesCtrDecrypt p.helloDictKey
                  (((maskHopsZeroMac dataBytes).drop (ii2 + 4)).take 12)
                  (((maskHopsZeroMac dataBytes).drop (ii2 + 4 + 12)).take
                    (dataBytes.length - ZT_HMACSHA384_LEN - (ii2 + 4 + 12))))
                (dataBytes.length - ZT_HMACSHA384_LEN - (ii2 + 4 + 12))
            ++ (maskHopsZeroMac dataBytes).drop
                (dataBytes.length - ZT_HMACSHA384_LEN)).drop
            (ii2 + 4 + 12 + 2 + 2)).take
          (loadBE ((maskHopsZeroMac dataBytes).take (ii2 + 4 + 12)
            ++ padTruncate (env.crypto.aesCtrDecrypt p.helloDictKey
                  (((maskHopsZeroMac dataBytes).drop (ii2 + 4)).take 12)
                  (((maskHopsZeroMac dataBytes).drop (ii2 + 4 + 12)).take
                    (dataBytes.length - ZT_HMACSHA384_LEN - (ii2 + 4 + 12))))
                (dataBytes.length - ZT_HMACSHA384_LEN - (ii2 + 4 + 12))
            ++ (maskHopsZeroMac dataBytes).drop
                (dataBytes.length - ZT_HMACSHA384_LEN))
          (ii2 + 4 + 12 + 2) 2)) = none →
      onRemotePacket env st dataBytes
        = { st := { peers := alist.insert st.peers id.addr
                      { p with dedupRing :=
                          ((loadBE dataBytes ZT_PROTO_PACKET_ID_INDEX 8)
                            :: p.dedupRing).take ZT_PEER_DEDUP_WINDOW }
                    whois := st.whois
                    expect := st.expect }
            events := [.dropped 0x707a9816
              (loadBE dataBytes ZT_PROTO_PACKET_ID_INDEX 8) .INVALID_OBJECT]
            dispatched := [VERB_HELLO]
            receivedCalls := [(loadBE dataBytes ZT_PROTO_PACKET_SOURCE_INDEX 5,
              loadBE dataBytes ZT_PROTO_PACKET_ID_INDEX 8)]
            relayed := false
            okHelloSent := false
            remoteVersionSet := false
            whoisSent := false }) := by
  have hsz : ¬ (dataBytes.length < ZT_PROTO_MIN_PACKET_LENGTH
      ∨ ZT_BUF_MEM_SIZE < dataBytes.length) := by omega
  have hroute := runPipeline_fastpath env st dataBytes
    (by simp only [ZT_PROTO_MIN_PACKET_LENGTH] at hlen1
        simp only [ZT_PROTO_MIN_FRAGMENT_LENGTH]
        omega)
    hdst hfrag (by omega) (by simp [hfl])
  constructor
  · intro hover
    have hm := m_HELLO_dict_overflow env st.peers dataBytes id ii1 ii2 p
      hproto11 hident haddr hpeer hmatch hnotdup hlen48 hhmac hinet hfit hover
    unfold onRemotePacket
    rw [hroute]
    simp only [processAssembled]
    rw [if_pos hcv, if_neg hsz, hm]
    rfl
  · intro hnover hdecode
    have hm := m_HELLO_dict_decode_fail env st.peers dataBytes id ii1 ii2 p
      hproto11 hident haddr hpeer hmatch hnotdup hlen48 hhmac hinet hfit
      hnover hdecode
    unfold onRemotePacket
    rw [hroute]
    simp only [processAssembled]
    rw [if_pos hcv, if_neg hsz, hm]
    rfl

set_option maxRecDepth 4096 in
/-- Witness for C10: the concrete 106-byte HELLO from known peer 2 passes
the HMAC check and hits the dictionary-length overflow: the packet is
traced as `INVALID_OBJECT` (0x707a9815) yet the peer handle is returned, so
`peer->received` runs while no OK is sent and no remote version is set. -/
theorem claim_C10_hello_bad_dictionary_witness :
    onRemotePacket exEnvHello exState exHello106
      = { st := { peers := [(2, { exPeer with dedupRing := [1] })]
                  whois := []
                  expect := [] }
          events := [.dropped 0x707a9815 1 .INVALID_OBJECT]
          dispatched := [VERB_HELLO]
          receivedCalls := [(2, 1)]
          relayed := false
          okHelloSent := false
          remoteVersionSet := false
          whoisSent := false } := by
  have h := (claim_C10_hello_bad_dictionary exEnvHello exState exHello106
      exIdentity 41 41 exPeer (by decide) (by decide) (by decide) (by decide)
      (by decide) (by decide) (by decide) (by decide) (by decide) (by decide)
      (by decide) (by decide) (by decide) (by decide) (by decide)
      (by decide)).1 (by decide)
  rw [h]
  decide

end ZeroTier
